import Mathlib

set_option linter.dupNamespace false
set_option linter.unusedVariables false

/-!
# Bittleet control core: a shallow embedding of `src/app/Bittleet.cpp`

The embedding follows the functions of `Bittleet.cpp` one by one.  The module
level statics of the sketch (`lastCmd`, `offsetLR`, `checkGyro`, `servoCalibs`,
`skill`, `attitude`), the statics of `loop` (`enableMotion`, `frameIndex`,
`firstMotionJoint`, `move`), the static `balanceRecover` of `checkBodyMotion`
and the globals of `OpenCat.h` written by the sketch (`rollDeviation`,
`pitchDeviation`, `postureOrWalkingFactor`, `currentAdjust`) are the fields of
one record, `ControlState`.  Calls into collaborators whose code is not part of
the sketch (actuator driver, beeper, serial prints) are appended, in program
order, to the field `out`.

Conventions.
* `float` quantities are rationals: rounding and NaN are not represented.
* Machine integers are `Nat` / `Int`; a conversion into a narrower type is
  written out (`toInt8`, `toUInt8`, `toInt16`).
* An array read outside the array is undefined in C++; here it reads `0`, and a
  write outside the array is dropped.
* Constants, macros and functions of headers that are not part of the sketch
  are the fields of `Env`.
-/

namespace Bittleet

/-! ## Machine integers -/

/-- Conversion to `int8_t`. -/
def toInt8 (x : Int) : Int := (x + 128) % 256 - 128

/-- Conversion to `uint8_t`. -/
def toUInt8 (x : Int) : Nat := (x % 256).toNat

/-- Conversion to `int16_t`. -/
def toInt16 (x : Int) : Int := (x + 32768) % 65536 - 32768

/-- Read `a[i]` of an `int8_t` / `int16_t` array. -/
def readAt (a : List Int) (i : Int) : Int :=
  if 0 ≤ i then a.getD i.toNat 0 else 0

/-- Write `a[i] = v`. -/
def writeAt (a : List Int) (i : Int) (v : Int) : List Int :=
  if 0 ≤ i then a.set i.toNat v else a

/-! ## Commands (`command/Command.h`) -/

namespace Command

/-- Modelled from the spec: the enumeration `Command::Type` of
`command/Command.h`, with the four variants of a command. -/
inductive CmdType
  | None
  | Simple
  | Move
  | WithArgs
deriving DecidableEq, Repr

/-- Modelled from the spec: the enumeration `Command::Simple` of
`command/Command.h`, with the tokens the sketch names; `other` stands for the
remaining tokens. -/
inductive Simple
  | Rest
  | GyroToggle
  | Pause
  | SaveServoCalibration
  | AbortServoCalibration
  | ShowJointAngles
  | Recover
  | Balance
  | other (n : Nat)
deriving DecidableEq, Repr

/-- Modelled from the spec: the enumeration `Command::Pace` (speed class of a
move); `other` stands for the paces the sketch does not name. -/
inductive Pace
  | Medium
  | other (n : Nat)
deriving DecidableEq, Repr

/-- Modelled from the spec: the enumeration `Command::Direction`; `other` stands
for the directions the sketch does not name. -/
inductive Direction
  | Forward
  | Left
  | Right
  | other (n : Nat)
deriving DecidableEq, Repr

/-- Modelled from the spec: the gait selector `Command::Move`, a speed class and
a direction. -/
structure Move where
  pace : Pace
  direction : Direction
deriving DecidableEq, Repr

/-- Modelled from the spec: the enumeration `Command::ArgType`, the operation
tag of a `WithArgs` command; `other` stands for the tags the sketch does not
name. -/
inductive ArgType
  | Calibrate
  | MoveSequentially
  | Meow
  | Beep
  | MoveSimultaneously
  | other (n : Nat)
deriving DecidableEq, Repr

/-- Modelled from the spec: the payload `Command::WithArgs`, an operation tag
and a short list of signed integers, `args[0..len-1]`. -/
structure WithArgs where
  cmd : ArgType
  args : List Int
deriving DecidableEq, Repr

/-- The argument count `cmd.len`. -/
def WithArgs.len (w : WithArgs) : Int := w.args.length

/-- Modelled from the spec: what a command carries, one payload per variant. -/
inductive Payload
  | none
  | simple (s : Simple)
  | move (m : Move)
  | withArgs (w : WithArgs)
deriving DecidableEq, Repr

/-- Modelled from the spec: the class `Command::Command` of `command/Command.h`,
which is not part of the sketch.  A command is a tagged value: `type` is what
`type()` returns, and each `get` accessor of the sketch succeeds exactly when
the payload is of the variant asked for, so that an accessor can fail on a
command whose tag promises that variant.  Commands are compared
structurally. -/
structure Command where
  type : CmdType
  payload : Payload
deriving DecidableEq, Repr

/-- The default constructor `Command::Command()`: no new command. -/
def Command.none : Command := ⟨CmdType.None, Payload.none⟩

/-- The constructor `Command::Command(Command::Simple)`. -/
def Command.ofSimple (s : Simple) : Command := ⟨CmdType.Simple, Payload.simple s⟩

/-- The constructor `Command::Command(Command::Move)`. -/
def Command.ofMove (m : Move) : Command := ⟨CmdType.Move, Payload.move m⟩

/-- The constructor `Command::Command(Command::WithArgs)`. -/
def Command.ofWithArgs (w : WithArgs) : Command := ⟨CmdType.WithArgs, Payload.withArgs w⟩

/-- The accessor `get(Command::Move&)`. -/
def Command.getMove (c : Command) : Option Move :=
  match c.payload with
  | Payload.move m => some m
  | _ => Option.none

/-- The accessor `get(Command::Simple&)`. -/
def Command.getSimple (c : Command) : Option Simple :=
  match c.payload with
  | Payload.simple s => some s
  | _ => Option.none

/-- The accessor `get(Command::WithArgs&)`. -/
def Command.getWithArgs (c : Command) : Option WithArgs :=
  match c.payload with
  | Payload.withArgs w => some w
  | _ => Option.none

end Command

/-! ## Skills (`skill/Skill.h`) -/

namespace Skill

/-- Modelled from the spec: the enumeration `Skill::Type` of `skill/Skill.h`. -/
inductive SkillType
  | Invalid
  | Posture
  | Gait
  | Behaviour
deriving DecidableEq, Repr

/-- Modelled from the spec: the member `loopSpec` of a skill, the sub-range loop
of a frame sequence (first row, final row, repeat count). -/
structure LoopSpec where
  firstRow : Int
  finalRow : Int
  count : Int
deriving DecidableEq, Repr

/-- Modelled from the spec: the fields of `Skill::Skill` (`skill/Skill.h`) the
sketch reads and writes.  `spec` is the `int8_t` angle table, `frames` an 8 bit
frame count. -/
structure Skill where
  type : SkillType
  frames : Nat
  spec : List Int
  doubleAngles : Bool
  nominalRoll : ℚ
  nominalPitch : ℚ
  loopSpec : LoopSpec
deriving DecidableEq

/-- The value `Skill::Skill::Empty()`. -/
def Skill.Empty : Skill := ⟨SkillType.Invalid, 0, [], false, 0, 0, ⟨0, 0, 0⟩⟩

end Skill

/-! ## Attitude and collaborator calls -/

/-- Modelled from the spec: the attitude state of `state/Attitude.h`, reduced to
the roll and pitch it answers with, in radians. -/
structure Attitude where
  roll : ℚ
  pitch : ℚ
deriving DecidableEq

/-- The texts the sketch prints. -/
inductive Msg
  | MoveErr
  | SimpleErr
  | WithArgsErr
  | SimultaneousErr
  | saveOffset
  | aborted
  | range
  | jointAngles
  | calibs
  | loading
  | loaded
deriving DecidableEq, Repr

/-- One call into a collaborator. -/
inductive Event
  /-- A print on the serial port. -/
  | print (m : Msg)
  /-- The two angles printed in the trigger wait of a behaviour frame. -/
  | printAngles (current trigger : ℚ)
  /-- The call `beep(...)` with the arguments given. -/
  | beep (args : List Int)
  /-- The call `meow(...)` with the arguments given. -/
  | meow (args : List Int)
  /-- The call `transform(buf + start, args...)`, with the arguments the sketch
  passes after the angle pointer (angle ratio, speed ratio, joint offset). -/
  | transform (buf : List Int) (start : Int) (args : List ℚ)
  /-- The call `shutServos()`. -/
  | shutServos
  /-- The call `calibratedPWM(i, angle)`. -/
  | calibratedPWM (i : Int) (angle : ℚ)
  /-- A direct `pwm.setPWM` of joint `index`; `angle` is the sum the sketch adds
  to `middleShift(index)` before scaling to a duty. -/
  | setPWM (index : Int) (angle : ℚ)
  /-- The sweep of `pwm.setPWM` calls of `MoveSequentially`, which moves joint
  `index` from the driver's `currentAng[index]` to `angle`. -/
  | sweep (index : Int) (angle : Int)
  /-- The call `saveCalib(servoCalibs)`. -/
  | saveCalib (calibs : List Int)
  /-- The call `delay(ms)`. -/
  | delay (ms : Int)
deriving DecidableEq

/-- The control state of the sketch. -/
structure ControlState where
  lastCmd : Command.Command
  offsetLR : Int
  checkGyro : Bool
  servoCalibs : List Int
  skill : Skill.Skill
  attitude : Attitude
  enableMotion : Bool
  frameIndex : Nat
  firstMotionJoint : Nat
  move : Command.Move
  balanceRecover : Nat
  rollDeviation : ℚ
  pitchDeviation : ℚ
  postureOrWalkingFactor : ℚ
  currentAdjust : List ℚ
  out : List Event
deriving DecidableEq

/-- Constants, macros and functions of the headers outside the sketch
(`OpenCat.h`, `skill/LoaderEeprom.h`, `state/Attitude.h`, `math.h`). -/
structure Env where
  /-- The joint count `DOF`. -/
  DOF : Nat
  /-- The count `WALKING_DOF` of leg joints. -/
  WALKING_DOF : Nat
  POSTURE_WALKING_FACTOR : ℚ
  /-- The thresholds `LARGE_PITCH` and `LARGE_ROLL`, in degrees. -/
  LARGE_PITCH : ℚ
  LARGE_ROLL : ℚ
  ROLL_LEVEL_TOLERANCE : ℚ
  PITCH_LEVEL_TOLERANCE : ℚ
  M_PI : ℚ
  M_DEG2RAD : ℚ
  M_RAD2DEG : ℚ
  /-- The call `loader->load(cmd, skill)`: the skill left in `skill`. -/
  load : Command.Command → Skill.Skill → Skill.Skill
  /-- The stored calibration `servoCalib(i)`. -/
  servoCalib : Nat → Int
  /-- The call `adjust(i)`, from the deviation terms, the posture/walking factor
  and `currentAdjust`: the value returned and the new `currentAdjust`. -/
  adjust : ℚ → ℚ → ℚ → List ℚ → Int → ℚ × List ℚ
  /-- The function `sin`. -/
  sin : ℚ → ℚ
  /-- The call `attitude.reset()`. -/
  attReset : Attitude → Attitude
  /-- The call `attitude.angleFromAxis(axis)`. -/
  angleFromAxis : Attitude → Int → ℚ

/-- The macro `LARGE_PITCH_RAD`. -/
def LARGE_PITCH_RAD (env : Env) : ℚ := env.LARGE_PITCH * env.M_DEG2RAD

/-- The macro `LARGE_ROLL_RAD`. -/
def LARGE_ROLL_RAD (env : Env) : ℚ := env.LARGE_ROLL * env.M_DEG2RAD

/-- Append collaborator calls to the record of the state. -/
def emit (s : ControlState) (es : List Event) : ControlState :=
  { s with out := s.out ++ es }

/-! ## `doPostureCommand` -/

/-- The function `doPostureCommand(cmd, angleDataRatio, speedRatio,
shutServoAfterward)`; the command passed by reference is returned with the
state. -/
def doPostureCommand (env : Env) (s : ControlState) (cmd : Command.Command)
    (angleDataRatio : Int) (speedRatio : ℚ) (shutServoAfterward : Bool) :
    ControlState × Command.Command :=
  let s1 := { s with skill := env.load cmd s.skill }
  if s1.skill.type ≠ Skill.SkillType.Posture then (s1, cmd)
  else
    let s2 := emit s1 [Event.transform s1.skill.spec 0 [(angleDataRatio : ℚ), speedRatio]]
    if shutServoAfterward then
      (emit s2 [Event.shutServos], Command.Command.ofSimple Command.Simple.Rest)
    else (s2, cmd)

/-! ## `checkBodyMotion` -/

/-- What the sensor and the estimator give during one call of `checkBodyMotion`:
`updated` is the attitude after the `updateAttitude()` at entry, `reupdated` the
attitude after the `attitude.reset(); updateAttitude();` pair of a completed
recovery. -/
structure AttitudeInput where
  updated : Attitude
  reupdated : Attitude
deriving DecidableEq

/-- The test of line 119: pitch or roll beyond its large-angle threshold. -/
def overThreshold (env : Env) (a : Attitude) : Prop :=
  |a.pitch| > LARGE_PITCH_RAD env ∨ |a.roll| > LARGE_ROLL_RAD env

instance (env : Env) (a : Attitude) : Decidable (overThreshold env a) := by
  unfold overThreshold; exact inferInstance

/-- Lines 144-161: the deviation terms, forced to zero while recovering and
otherwise smoothed and clamped inside the dead band. -/
def updateDeviation (env : Env) (recovering : Bool) (s : ControlState) : ControlState :=
  if recovering then { s with rollDeviation := 0, pitchDeviation := 0 }
  else
    let rollDev := s.attitude.roll * env.M_RAD2DEG - s.skill.nominalRoll
    let pitchDev := s.attitude.pitch * env.M_RAD2DEG - s.skill.nominalPitch
    let r := (8 / 16 : ℚ) * s.rollDeviation + (8 / 16 : ℚ) * rollDev
    let p := (8 / 16 : ℚ) * s.pitchDeviation + (8 / 16 : ℚ) * pitchDev
    { s with
      rollDeviation := if |r| < env.ROLL_LEVEL_TOLERANCE then 0 else r
      pitchDeviation := if |p| < env.PITCH_LEVEL_TOLERANCE then 0 else p }

/-- The function `checkBodyMotion(newCmd)`: the new state and the value left in
`newCmd`. -/
def checkBodyMotion (env : Env) (inp : AttitudeInput) (s : ControlState)
    (newCmd : Command.Command) : ControlState × Command.Command :=
  let s0 := { s with attitude := inp.updated }
  if overThreshold env s0.attitude then
    let cmd :=
      if s0.balanceRecover ≠ 0 then
        if |s0.attitude.roll| > LARGE_ROLL_RAD env then
          Command.Command.ofSimple Command.Simple.Recover
        else newCmd
      else newCmd
    let s1 := { s0 with balanceRecover := 10, attitude := env.attReset s0.attitude }
    (updateDeviation env true s1, cmd)
  else if s0.balanceRecover ≠ 0 then
    let s1 := { s0 with attitude := env.attReset s0.attitude,
                        balanceRecover := (s0.balanceRecover - 1) % 256 }
    if s1.balanceRecover = 0 then
      let s2 := { s1 with lastCmd := Command.Command.ofSimple Command.Simple.Balance,
                          attitude := inp.reupdated,
                          out := s1.out ++ [Event.meow []] }
      (updateDeviation env false s2, s1.lastCmd)
    else (updateDeviation env true s1, newCmd)
  else (updateDeviation env false s0, newCmd)

/-! ## `doBehaviorSkill` -/

/-- The `while (1)` of lines 177-189: poll the attitude until the trigger
condition holds.  `sensor k` is the attitude after the `k`-th
`updateAttitude()` of the playback; `fuel` bounds the number of polls, and
`none` is a wait that did not end within it. -/
def waitTrigger (env : Env) (sensor : Nat → Attitude) (triggerAxis : Int) (triggerAngle : ℚ) :
    Nat → ℚ → Nat → ControlState → Option (ControlState × Nat)
  | 0, _, _, _ => none
  | fuel + 1, previousAngle, k, s =>
    let s1 := { s with attitude := sensor k }
    let currentAngle := env.angleFromAxis s1.attitude triggerAxis
    let s2 := emit s1 [Event.printAngles currentAngle triggerAngle]
    if env.M_PI - |currentAngle| > 2
        ∧ ((triggerAxis : ℚ) * currentAngle < (triggerAxis : ℚ) * triggerAngle
          ∧ (triggerAxis : ℚ) * previousAngle > (triggerAxis : ℚ) * triggerAngle) then
      some (s2, k + 1)
    else waitTrigger env sensor triggerAxis triggerAngle fuel currentAngle (k + 1) s2

/-- Lines 169-192: the body of the frame loop for frame `c`, before the loop
bookkeeping: the transform of the frame, then the trigger wait or the delay. -/
def playFrame (env : Env) (sensor : Nat → Attitude) (maxPolls : Nat) (skill : Skill.Skill)
    (c : Nat) (k : Nat) (s : ControlState) : Option (ControlState × Nat) :=
  let frameSize : Int := 20
  let angleMultiplier : Int := if skill.doubleAngles then 2 else 1
  let s1 := emit s [Event.transform skill.spec (c * frameSize)
    [(angleMultiplier : ℚ), (readAt skill.spec (16 + c * frameSize) : ℚ) / 4]]
  if readAt skill.spec (18 + c * frameSize) ≠ 0 then
    let triggerAxis := readAt skill.spec (18 + c * frameSize)
    let triggerAngle := (readAt skill.spec (19 + c * frameSize) : ℚ) * env.M_DEG2RAD
    let currentAngle := env.angleFromAxis s1.attitude triggerAxis
    waitTrigger env sensor triggerAxis triggerAngle maxPolls currentAngle k s1
  else
    some (emit s1 [Event.delay (readAt skill.spec (17 + c * frameSize) * 50)], k)

/-- The `for` loop of lines 168-197 from the test `c < skill.frames` on, with
the 8 bit counter `c` and the 8 bit `repeat`; `fuel` bounds the number of
iterations. -/
def behaviorLoop (env : Env) (sensor : Nat → Attitude) (maxPolls : Nat) (skill : Skill.Skill) :
    Nat → Nat → Int → Nat → ControlState → Option ControlState
  | 0, _, _, _, _ => none
  | fuel + 1, c, repeat_, k, s =>
    if c < skill.frames then
      match playFrame env sensor maxPolls skill c k s with
      | none => none
      | some (s1, k1) =>
        if (c : Int) = skill.loopSpec.finalRow ∧ repeat_ > 0 then
          behaviorLoop env sensor maxPolls skill fuel
            ((toUInt8 (skill.loopSpec.firstRow - 1) + 1) % 256) (toInt8 (repeat_ - 1)) k1 s1
        else
          behaviorLoop env sensor maxPolls skill fuel ((c + 1) % 256) repeat_ k1 s1
    else some s

/-- The function `doBehaviorSkill(skill)`, called on the active skill.  `fuel`
bounds both the iterations of the frame loop and the polls of one trigger
wait. -/
def doBehaviorSkill (env : Env) (sensor : Nat → Attitude) (fuel : Nat) (s : ControlState) :
    Option ControlState :=
  behaviorLoop env sensor fuel s.skill fuel 0 (toInt8 (s.skill.loopSpec.count - 1)) 0 s

/-! ## `processNewCommand` -/

/-- Lines 394-432: the `switch` on a `Simple` command. -/
def dispatchSimple (env : Env) (s : ControlState) (newCmd : Command.Command)
    (cmd : Command.Simple) : ControlState × Command.Command :=
  match cmd with
  | Command.Simple.Rest =>
    let s1 := { s with lastCmd := newCmd }
    let p := doPostureCommand env s1 s1.lastCmd 1 1 true
    ({ p.1 with lastCmd := p.2, enableMotion := false }, newCmd)
  | Command.Simple.GyroToggle =>
    ({ s with checkGyro := !s.checkGyro, enableMotion := true }, newCmd)
  | Command.Simple.Pause =>
    let s1 := { s with enableMotion := !s.enableMotion }
    if s1.enableMotion then (s1, Command.Command.none)
    else (emit s1 [Event.shutServos], newCmd)
  | Command.Simple.SaveServoCalibration =>
    (emit s [Event.print Msg.saveOffset, Event.saveCalib s.servoCalibs], newCmd)
  | Command.Simple.AbortServoCalibration =>
    (emit { s with servoCalibs := (List.range env.DOF).map env.servoCalib }
      [Event.print Msg.aborted], newCmd)
  | Command.Simple.ShowJointAngles =>
    (emit s [Event.print Msg.range, Event.print Msg.jointAngles], newCmd)
  | _ => (s, newCmd)

/-- Lines 441-468: the case `Calibrate`. -/
def dispatchCalibrate (env : Env) (s : ControlState) (newCmd : Command.Command)
    (cmd : Command.WithArgs) : ControlState :=
  let s1 := emit s [Event.print Msg.range, Event.print Msg.calibs]
  let s2 :=
    if s1.lastCmd ≠ newCmd then
      let s3 := { s1 with lastCmd := newCmd, skill := env.load newCmd s1.skill }
      let s4 :=
        if s3.skill.type ≠ Skill.SkillType.Invalid then
          emit s3 [Event.transform s3.skill.spec 0 []]
        else s3
      { s4 with checkGyro := false }
    else s1
  if cmd.len = 2 then
    let index := readAt cmd.args 0
    let angle := readAt cmd.args 1
    let angle1 :=
      if angle ≥ 1001 then toInt16 (readAt s2.servoCalibs index + angle - 1000)
      else if angle ≤ -1001 then toInt16 (readAt s2.servoCalibs index + angle + 1000)
      else angle
    let s5 := { s2 with servoCalibs := writeAt s2.servoCalibs index (toInt8 angle1) }
    emit s5 [Event.setPWM index
      ((readAt s5.servoCalibs index + readAt s5.skill.spec index : Int) : ℚ)]
  else s2

/-- Lines 474-487: one pass of the joint loop of `MoveSequentially`, which reads
`args[0]` and `args[1]` on every pass. -/
def moveSequentiallyStep (cmd : Command.WithArgs) (s : ControlState) : ControlState :=
  let index := readAt cmd.args 0
  let angle := readAt cmd.args 1
  let s1 := emit s [Event.sweep index angle]
  { s1 with skill := { s1.skill with spec := writeAt s1.skill.spec index (toInt8 angle) } }

/-- Lines 440-510: the `switch` on a `WithArgs` command. -/
def dispatchWithArgs (env : Env) (s : ControlState) (newCmd : Command.Command)
    (cmd : Command.WithArgs) : ControlState :=
  match cmd.cmd with
  | Command.ArgType.Calibrate => dispatchCalibrate env s newCmd cmd
  | Command.ArgType.MoveSequentially =>
    let joints := toInt16 (cmd.len / 2)
    let s1 := { s with skill := { s.skill with type := Skill.SkillType.Posture } }
    (List.range joints.toNat).foldl (fun acc _ => moveSequentiallyStep cmd acc) s1
  | Command.ArgType.Meow =>
    let repeat_ := if cmd.len ≥ 1 then readAt cmd.args 0 else 0
    let increment := if cmd.len ≥ 2 then readAt cmd.args 1 + 1 else 1
    emit s [Event.meow [repeat_, 0, 50, 200, increment]]
  | Command.ArgType.Beep =>
    let note := toInt8 (if cmd.len ≥ 1 then readAt cmd.args 0 else 0)
    let duration := toUInt8 (if cmd.len ≥ 2 then readAt cmd.args 1 else 0)
    emit s [Event.beep [note, duration]]
  | Command.ArgType.MoveSimultaneously =>
    if cmd.len ≠ env.DOF then emit s [Event.print Msg.SimultaneousErr]
    else emit s [Event.transform cmd.args 0 [1, 6]]
  | Command.ArgType.other _ => s

/-- Lines 382-512: the dispatch on the type of the command; the command is
passed by reference and returned with the state. -/
def dispatch (env : Env) (s : ControlState) (newCmd : Command.Command) :
    ControlState × Command.Command :=
  if newCmd.type = Command.CmdType.Move then
    match newCmd.getMove with
    | none => (emit s [Event.print Msg.MoveErr], newCmd)
    | some m => ({ s with move := m, enableMotion := true }, newCmd)
  else if newCmd.type = Command.CmdType.Simple then
    match newCmd.getSimple with
    | none => (emit s [Event.print Msg.SimpleErr], newCmd)
    | some cmd => dispatchSimple env s newCmd cmd
  else if newCmd.type = Command.CmdType.WithArgs then
    let s1 := { s with enableMotion := false }
    match newCmd.getWithArgs with
    | none => (emit s1 [Event.print Msg.WithArgsErr], newCmd)
    | some cmd => (dispatchWithArgs env s1 newCmd cmd, newCmd)
  else (s, newCmd)

/-- Lines 523-531: the left/right offset of the look joint. -/
def setOffsetLR (s : ControlState) (newCmd : Command.Command) : ControlState :=
  let s1 := { s with offsetLR := 0 }
  if newCmd.type = Command.CmdType.Move then
    match newCmd.getMove with
    | some m =>
      let s2 := { s1 with move := m }
      if m.direction = Command.Direction.Left then { s2 with offsetLR := 15 }
      else if m.direction = Command.Direction.Right then { s2 with offsetLR := -15 }
      else s2
    | none => s1
  else s1

/-- Lines 543-547: after the playback of a behaviour, `Balance` becomes the last
command, its posture is loaded through `doPostureCommand` with the servos left
on, and the attitude adjustment of every joint is cleared. -/
def finishBehaviour (env : Env) (s : ControlState) : ControlState :=
  let s1 := { s with lastCmd := Command.Command.ofSimple Command.Simple.Balance }
  let p := doPostureCommand env s1 s1.lastCmd 1 2 false
  { p.1 with lastCmd := p.2, currentAdjust := List.replicate env.DOF 0 }

/-- Lines 519-556: the body of the `if` that installs a new command. -/
def install (env : Env) (sensor : Nat → Attitude) (fuel : Nat) (s : ControlState)
    (newCmd : Command.Command) : Option ControlState :=
  let s1 := emit s [Event.print Msg.loading]
  let s2 := emit { s1 with skill := env.load newCmd s1.skill } [Event.print Msg.loaded]
  let s3 := setOffsetLR s2 newCmd
  let s4 := { s3 with
    frameIndex := 0
    lastCmd := newCmd
    postureOrWalkingFactor :=
      if s3.skill.type = Skill.SkillType.Posture then 1 else env.POSTURE_WALKING_FACTOR
    firstMotionJoint :=
      if s3.skill.type = Skill.SkillType.Gait then
        toUInt8 ((env.DOF : Int) - (env.WALKING_DOF : Int))
      else 0 }
  let r : Option ControlState :=
    if s4.skill.type = Skill.SkillType.Behaviour then
      (doBehaviorSkill env sensor fuel s4).map (finishBehaviour env)
    else if s4.skill.type ≠ Skill.SkillType.Invalid then
      let angleMultiplier : Int := if s4.skill.doubleAngles then 2 else 1
      some (emit s4 [Event.transform s4.skill.spec 0
        [(angleMultiplier : ℚ), 1, (s4.firstMotionJoint : ℚ)]])
    else some s4
  r.map fun s7 =>
    if newCmd = Command.Command.ofSimple Command.Simple.Rest then
      emit { s7 with enableMotion := false } [Event.shutServos]
    else s7

/-- The function `processNewCommand(newCmd, move, enableMotion,
firstMotionJoint, frameIndex)`.  `sensor` and `fuel` are the attitude polls and
their bound for a behaviour played inside the call; `none` is a playback that
did not end within the bound. -/
def processNewCommand (env : Env) (sensor : Nat → Attitude) (fuel : Nat) (s : ControlState)
    (newCmd : Command.Command) : Option ControlState :=
  let p := dispatch env s newCmd
  let s1 := if p.2 ≠ Command.Command.none then emit p.1 [Event.beep [8]] else p.1
  if p.2 ≠ Command.Command.none ∧ p.2 ≠ s1.lastCmd then install env sensor fuel s1 p.2
  else some s1

/-! ## The input and attitude duties -/

/-- The function `doInputTask`.  `ir` is the command parsed from the infrared
receiver when `irrecv.decode` reports a signal, `serial` the command parsed from
the serial port; each may play a behaviour, with its own attitude polls. -/
def doInputTask (env : Env) (sensorIr sensorSerial : Nat → Attitude) (fuel : Nat)
    (ir : Option Command.Command) (serial : Command.Command) (s : ControlState) :
    Option ControlState :=
  let r : Option ControlState :=
    match ir with
    | some newCmd =>
      if newCmd.type ≠ Command.CmdType.None then processNewCommand env sensorIr fuel s newCmd
      else some s
    | none => some s
  r.bind fun s1 =>
    if serial.type ≠ Command.CmdType.None then
      processNewCommand env sensorSerial fuel s1 serial
    else some s1

/-- The function `doAttitudeTask`. -/
def doAttitudeTask (env : Env) (inp : AttitudeInput) (sensor : Nat → Attitude) (fuel : Nat)
    (s : ControlState) : Option ControlState :=
  let p := if s.checkGyro then checkBodyMotion env inp s Command.Command.none
           else (s, Command.Command.none)
  processNewCommand env sensor fuel p.1 p.2

/-! ## The motion duty -/

/-- The `for` loop of `doMotionPosture` (lines 571-582) from the test `i < DOF`
on; `fuel` bounds the number of iterations. -/
def postureLoop (env : Env) (skill : Skill.Skill) : Nat → Int → ControlState → Option ControlState
  | 0, _, _ => none
  | fuel + 1, i, s =>
    if i < env.DOF then
      let i1 : Int := if i = 1 then (env.DOF : Int) - (env.WALKING_DOF : Int) else i
      if i1 = 0 then
        postureLoop env skill fuel (i1 + 1) (emit s [Event.calibratedPWM i1 s.rollDeviation])
      else
        let angleMultiplier : Int := if skill.doubleAngles then 2 else 1
        let a := if s.checkGyro then
            env.adjust s.rollDeviation s.pitchDeviation s.postureOrWalkingFactor s.currentAdjust i1
          else ((0 : ℚ), s.currentAdjust)
        let s1 := { s with currentAdjust := a.2 }
        postureLoop env skill fuel (i1 + 1)
          (emit s1 [Event.calibratedPWM i1 ((readAt skill.spec i1 * angleMultiplier : Int) + a.1)])
    else some s

/-- The function `doMotionPosture(skill)`, called on the active skill.  The loop
is given `DOF + 2` iterations, which it exceeds only when it does not end. -/
def doMotionPosture (env : Env) (s : ControlState) : Option ControlState :=
  if s.skill.type = Skill.SkillType.Posture then postureLoop env s.skill (env.DOF + 2) 0 s
  else some s

/-- The `for` loop of `doMotionMove` (lines 592-608) from the test `i < DOF` on,
at frame `frameIndex`; `fuel` bounds the number of iterations. -/
def moveLoop (env : Env) (skill : Skill.Skill) (firstMotionJoint frameIndex : Nat) :
    Nat → Int → ControlState → Option ControlState
  | 0, _, _ => none
  | fuel + 1, i, s =>
    if i < env.DOF then
      if i = 0 then
        if skill.frames > 1 then
          moveLoop env skill firstMotionJoint frameIndex fuel (i + 1)
            (emit s [Event.calibratedPWM i
              (s.offsetLR + 10 * env.sin (frameIndex * 2 * env.M_PI / skill.frames))])
        else moveLoop env skill firstMotionJoint frameIndex fuel (i + 1) s
      else
        let i1 : Int := if i = 1 then (firstMotionJoint : Int) else i
        let angleMultiplier : Int := if skill.doubleAngles then 2 else 1
        let dutyIdx : Int := frameIndex * env.WALKING_DOF + (i1 - firstMotionJoint)
        moveLoop env skill firstMotionJoint frameIndex fuel (i1 + 1)
          (emit s [Event.calibratedPWM i1 ((readAt skill.spec dutyIdx * angleMultiplier : Int) : ℚ)])
    else some s

/-- Lines 588-590: the frame index `doMotionMove` plays, after the wrap at the
frame count. -/
def gaitFrame (s : ControlState) : Nat :=
  if s.frameIndex ≥ s.skill.frames then 0 else s.frameIndex

/-- The function `doMotionMove(skill, firstMotionJoint, frameIndex)`, called on
the active skill.  The loop is given `DOF + 2` iterations, which it exceeds only
when it does not end. -/
def doMotionMove (env : Env) (s : ControlState) : Option ControlState :=
  if s.skill.type = Skill.SkillType.Gait then
    let s1 := { s with frameIndex := gaitFrame s }
    (moveLoop env s1.skill s1.firstMotionJoint s1.frameIndex (env.DOF + 2) 0 s1).map fun s2 =>
      { s2 with frameIndex := (s2.frameIndex + 1) % 256 }
  else some { s with frameIndex := 0 }

/-- The function `doMotionTask`. -/
def doMotionTask (env : Env) (s : ControlState) : Option ControlState :=
  if s.enableMotion then doMotionMove env s else doMotionPosture env s

/-! ## Runs of the duties -/

/-- Consecutive attitude ticks with gyro checking on, seen from
`checkBodyMotion`: tick `k` calls it on the fresh command of `doAttitudeTask`
with the input `inputs k`. -/
def bodyRun (env : Env) (inputs : Nat → AttitudeInput) (s : ControlState) : Nat → ControlState
  | 0 => s
  | k + 1 => (checkBodyMotion env (inputs k) (bodyRun env inputs s k) Command.Command.none).1

/-- The state before motion tick `k`, after `k` calls of `doMotionTask`. -/
def motionRun (env : Env) (s : ControlState) : Nat → Option ControlState
  | 0 => some s
  | k + 1 => (motionRun env s k).bind (doMotionTask env)

/-! ## A concrete robot -/

/-- A posture of sixteen base angles `[10, 0, 0, ...]`. -/
def examplePosture : Skill.Skill :=
  { type := Skill.SkillType.Posture, frames := 1, spec := 10 :: List.replicate 15 0,
    doubleAngles := false, nominalRoll := 0, nominalPitch := 0, loopSpec := ⟨0, 0, 0⟩ }

/-- A gait of four frames of eight leg angles. -/
def exampleGait : Skill.Skill :=
  { type := Skill.SkillType.Gait, frames := 4,
    spec := (List.range 32).map fun n => (n : Int),
    doubleAngles := false, nominalRoll := 0, nominalPitch := 0, loopSpec := ⟨0, 0, 0⟩ }

/-- A loader that knows the rest posture and the gaits and answers `Invalid` to
every other command. -/
def exampleLoad (c : Command.Command) (old : Skill.Skill) : Skill.Skill :=
  if c = Command.Command.ofSimple Command.Simple.Rest then examplePosture
  else if c.type = Command.CmdType.Move then exampleGait
  else { old with type := Skill.SkillType.Invalid }

/-- An environment with the joint counts of the Bittle robot, `DOF = 16` and
`WALKING_DOF = 8`, thresholds of 75 and 60 degrees and rational stand-ins for
the constants and functions of `math.h`. -/
def exampleEnv : Env :=
  { DOF := 16
    WALKING_DOF := 8
    POSTURE_WALKING_FACTOR := 1 / 2
    LARGE_PITCH := 75
    LARGE_ROLL := 60
    ROLL_LEVEL_TOLERANCE := 2
    PITCH_LEVEL_TOLERANCE := 1
    M_PI := 355 / 113
    M_DEG2RAD := 355 / (113 * 180)
    M_RAD2DEG := (113 * 180) / 355
    load := exampleLoad
    servoCalib := fun _ => 0
    adjust := fun _ _ _ adj _ => (0, adj)
    sin := fun x => x - x ^ 3 / 6
    attReset := fun a => a
    angleFromAxis := fun a axis => if axis < 0 then a.pitch else a.roll }

/-- The state after `setup`: resting, motion disabled, gyro checking on. -/
def exampleState : ControlState :=
  { lastCmd := Command.Command.ofSimple Command.Simple.Rest
    offsetLR := 0
    checkGyro := true
    servoCalibs := List.replicate 16 0
    skill := examplePosture
    attitude := ⟨0, 0⟩
    enableMotion := false
    frameIndex := 0
    firstMotionJoint := 0
    move := ⟨Command.Pace.Medium, Command.Direction.Forward⟩
    balanceRecover := 0
    rollDeviation := 0
    pitchDeviation := 0
    postureOrWalkingFactor := 1
    currentAdjust := List.replicate 16 0
    out := [] }

/-- No attitude polls are needed by the examples: a level robot. -/
def levelSensor : Nat → Attitude := fun _ => ⟨0, 0⟩

/-- A reading pitched by two radians, beyond the pitch threshold only. -/
def pitchedInput : AttitudeInput := ⟨⟨0, 2⟩, ⟨0, 0⟩⟩

/-- A reading rolled by two radians, beyond the roll threshold. -/
def rolledInput : AttitudeInput := ⟨⟨2, 0⟩, ⟨0, 0⟩⟩

/-- A level reading. -/
def levelInput : AttitudeInput := ⟨⟨0, 0⟩, ⟨0, 0⟩⟩

/-- The command "walk forward at medium pace". -/
def walkForward : Command.Command :=
  Command.Command.ofMove ⟨Command.Pace.Medium, Command.Direction.Forward⟩

/-- A walking robot on the last tick of its recovery: counter at one. -/
def settlingState : ControlState :=
  { exampleState with lastCmd := walkForward, skill := exampleGait, enableMotion := true,
                      firstMotionJoint := 8, balanceRecover := 1,
                      rollDeviation := 3, pitchDeviation := 4 }

/-- A pitched reading on tick 0 and level readings on every later tick. -/
def tipThenLevel (k : Nat) : AttitudeInput := if k = 0 then pitchedInput else levelInput

/-! ## Targets of one motion tick -/

/-- The targets of the leg joints `first .. first + n - 1` in posture mode with
multiplier 1 and no attitude compensation. -/
def postureTargets (skill : Skill.Skill) (first : Int) (n : Nat) : List Event :=
  (List.range n).map fun (j : Nat) =>
    Event.calibratedPWM (first + (j : Int)) ((readAt skill.spec (first + (j : Int)) : Int) : ℚ)

/-- The targets of the leg joints `first .. first + n - 1` at frame `frameIndex`
of a gait. -/
def gaitTargets (env : Env) (skill : Skill.Skill) (firstMotionJoint frameIndex : Nat)
    (first : Int) (n : Nat) : List Event :=
  (List.range n).map fun (j : Nat) =>
    Event.calibratedPWM (first + (j : Int))
      ((readAt skill.spec ((frameIndex : Int) * (env.WALKING_DOF : Int)
          + (first + (j : Int) - (firstMotionJoint : Int)))
        * (if skill.doubleAngles then 2 else 1) : Int) : ℚ)

/-- The target of the look joint at frame `frameIndex` of a gait. -/
def lookTarget (env : Env) (skill : Skill.Skill) (frameIndex : Nat) (offsetLR : Int) :
    List Event :=
  if skill.frames > 1 then
    [Event.calibratedPWM 0
      (offsetLR + 10 * env.sin (frameIndex * 2 * env.M_PI / skill.frames))]
  else []

/-- The joints written by the `calibratedPWM` calls of a record, in order. -/
def pwmJoints (out : List Event) : List Int :=
  out.filterMap fun e =>
    match e with
    | Event.calibratedPWM i _ => some i
    | _ => none

/-- The resting robot with gyro checking switched off. -/
def postureState : ControlState := { exampleState with checkGyro := false }

/-- The robot walking forward, at the start of its gait. -/
def walkingState : ControlState :=
  { exampleState with lastCmd := walkForward, skill := exampleGait, enableMotion := true,
                      firstMotionJoint := 8 }

/-- The state one gait tick leaves: the look target and the leg targets of the
frame played are recorded and the frame index is advanced. -/
def gaitStep (env : Env) (s : ControlState) : ControlState :=
  { emit s (lookTarget env s.skill (gaitFrame s) s.offsetLR
      ++ gaitTargets env s.skill s.firstMotionJoint (gaitFrame s)
          s.firstMotionJoint env.WALKING_DOF) with
    frameIndex := (gaitFrame s + 1) % 256 }

/-! ## Notions used by the command claims -/

/-- All of the control state but the attitude and the record of calls. -/
def sameControl (a b : ControlState) : Prop :=
  { a with attitude := b.attitude, out := b.out } = b

/-- The commands `processNewCommand` reports as errors: a `Move`, `Simple` or
`WithArgs` command whose accessor fails (lines 383, 391, 437) and a
`MoveSimultaneously` whose argument count is not `DOF` (line 503). -/
def malformed (env : Env) (c : Command.Command) : Prop :=
  (c.type = Command.CmdType.Move ∧ c.getMove = none)
    ∨ (c.type = Command.CmdType.Simple ∧ c.getSimple = none)
    ∨ (c.type = Command.CmdType.WithArgs ∧ c.getWithArgs = none)
    ∨ (c.type = Command.CmdType.WithArgs
        ∧ ∃ args : List Int, c.getWithArgs = some ⟨Command.ArgType.MoveSimultaneously, args⟩
          ∧ (args.length : Int) ≠ env.DOF)

/-- The commands whose own case of the dispatch installs them as last command:
`Rest` (line 396) and `Calibrate` (line 446). -/
def installedByDispatch (c : Command.Command) : Prop :=
  c = Command.Command.ofSimple Command.Simple.Rest
    ∨ ∃ args : List Int, c = Command.Command.ofWithArgs ⟨Command.ArgType.Calibrate, args⟩

/-- The robot turning left, three frames into its gait. -/
def turningState : ControlState :=
  { walkingState with
    lastCmd := Command.Command.ofMove ⟨Command.Pace.Medium, Command.Direction.Left⟩
    move := ⟨Command.Pace.Medium, Command.Direction.Left⟩
    offsetLR := 15
    frameIndex := 3 }

/-- A `MoveSimultaneously` command with three arguments. -/
def shortSimultaneous : Command.Command :=
  Command.Command.ofWithArgs ⟨Command.ArgType.MoveSimultaneously, [1, 2, 3]⟩

/-- A `Simple` command with a token the loader does not know. -/
def unknownSimple : Command.Command := Command.Command.ofSimple (Command.Simple.other 7)

/-- The command that toggles gyro checking. -/
def gyroToggle : Command.Command := Command.Command.ofSimple Command.Simple.GyroToggle

/-! ## Notions used by the behaviour claims -/

/-- The two collaborator calls of a frame without trigger axis: the transform of
frame `c` and its delay (lines 169 and 191). -/
def frameEvents (skill : Skill.Skill) (c : Nat) : List Event :=
  [Event.transform skill.spec ((c : Int) * 20)
      [(((if skill.doubleAngles then 2 else 1 : Int)) : ℚ),
        (readAt skill.spec (16 + (c : Int) * 20) : ℚ) / 4],
    Event.delay (readAt skill.spec (17 + (c : Int) * 20) * 50)]

/-- The calls of the frames of a list, played in its order. -/
def framesEvents (skill : Skill.Skill) : List Nat → List Event
  | [] => []
  | c :: cs => frameEvents skill c ++ framesEvents skill cs

/-- The span `f .. l` of frames, `j` times over. -/
def loopSpans (f l : Nat) : Nat → List Nat
  | 0 => []
  | j + 1 => List.range' f (l - f + 1) ++ loopSpans f l j

/-- The order of play the sub-range loop asks for: the frames `0 .. l`, then the
span `f .. l` another `r - 1` times, then the frames `l + 1 .. n - 1`. -/
def playOrder (n f l r : Nat) : List Nat :=
  List.range' 0 (l + 1) ++ (loopSpans f l (r - 1) ++ List.range' (l + 1) (n - (l + 1)))

/-- The frame offsets of the `transform` calls of a record, in order. -/
def frameStarts (out : List Event) : List Int :=
  out.filterMap fun e =>
    match e with
    | Event.transform _ start _ => some start
    | _ => none

/-- A behaviour of three frames without trigger axis, each frame sixteen angles,
a speed, a delay and a zero trigger, looping the span 0..1 with count 3. -/
def exampleBehaviour : Skill.Skill :=
  { type := Skill.SkillType.Behaviour, frames := 3,
    spec := (List.replicate 16 0 ++ [4, 1, 0, 0]) ++ (List.replicate 16 10 ++ [4, 1, 0, 0])
      ++ (List.replicate 16 20 ++ [4, 1, 0, 0]),
    doubleAngles := false, nominalRoll := 0, nominalPitch := 0, loopSpec := ⟨0, 1, 3⟩ }

/-- The resting robot with the example behaviour as active skill and the loop
count given. -/
def playingState (count : Int) : ControlState :=
  { exampleState with skill := { exampleBehaviour with loopSpec := ⟨0, 1, count⟩ } }

/-- A rolled reading on the ticks 0 and 1 and level readings afterwards. -/
def rollTwiceThenLevel (k : Nat) : AttitudeInput := if k < 2 then rolledInput else levelInput

/-- Lines 519-539: the state the install block has prepared when it looks at the
type of the skill loaded: skill loaded, offset set, frame index 0, command
installed, posture/walking factor and first motion joint set. -/
def prepared (env : Env) (s : ControlState) (newCmd : Command.Command) : ControlState :=
  let s1 := emit s [Event.print Msg.loading]
  let s2 := emit { s1 with skill := env.load newCmd s1.skill } [Event.print Msg.loaded]
  let s3 := setOffsetLR s2 newCmd
  { s3 with
    frameIndex := 0
    lastCmd := newCmd
    postureOrWalkingFactor :=
      if s3.skill.type = Skill.SkillType.Posture then 1 else env.POSTURE_WALKING_FACTOR
    firstMotionJoint :=
      if s3.skill.type = Skill.SkillType.Gait then
        toUInt8 ((env.DOF : Int) - (env.WALKING_DOF : Int))
      else 0 }

/-- A `Simple` command for a trick. -/
def trick : Command.Command := Command.Command.ofSimple (Command.Simple.other 1)

/-- A loader that knows the trick as the example behaviour and the balance
posture, and otherwise answers as the example loader. -/
def behaviourLoad (c : Command.Command) (old : Skill.Skill) : Skill.Skill :=
  if c = trick then exampleBehaviour
  else if c = Command.Command.ofSimple Command.Simple.Balance then examplePosture
  else exampleLoad c old

/-- The example robot with the loader that knows the trick. -/
def behaviourEnv : Env := { exampleEnv with load := behaviourLoad }

/-- The state in which the playback of the trick, asked of the walking robot,
ends. -/
def trickPlayed : ControlState :=
  emit (prepared behaviourEnv (emit walkingState [Event.beep [8]]) trick)
    (framesEvents exampleBehaviour (playOrder 3 0 1 3))

/-! ## The record of calls -/

/-- Recording no call leaves the state as it is. -/
theorem emit_nil (s : ControlState) : emit s [] = s := by
  cases s; simp [emit]

/-- Recording calls in two steps is recording them at once. -/
theorem emit_emit (s : ControlState) (a b : List Event) : emit (emit s a) b = emit s (a ++ b) := by
  cases s; simp [emit]

/-! ## The balance and recovery machine -/

/-- The recovery counter after a tick depends only on the counter before it and
on whether the reading is over threshold. -/
theorem checkBodyMotion_counter (env : Env) (inp : AttitudeInput) (s : ControlState)
    (newCmd : Command.Command) :
    (checkBodyMotion env inp s newCmd).1.balanceRecover =
      if overThreshold env inp.updated then 10
      else if s.balanceRecover ≠ 0 then (s.balanceRecover - 1) % 256 else 0 := by
  unfold checkBodyMotion updateDeviation
  by_cases h : overThreshold env inp.updated
  · simp [h]
  · by_cases hb : s.balanceRecover = 0
    · simp [h, hb]
    · by_cases hz : (s.balanceRecover - 1) % 256 = 0
      · simp [h, hb, hz]
      · simp [h, hb, hz]

/-- A tick over threshold, in full. -/
theorem checkBodyMotion_over (env : Env) (inp : AttitudeInput) (s : ControlState)
    (newCmd : Command.Command) (h : overThreshold env inp.updated) :
    checkBodyMotion env inp s newCmd =
      ({ s with attitude := env.attReset inp.updated, balanceRecover := 10,
                rollDeviation := 0, pitchDeviation := 0 },
       if s.balanceRecover ≠ 0 then
         if |inp.updated.roll| > LARGE_ROLL_RAD env then
           Command.Command.ofSimple Command.Simple.Recover
         else newCmd
       else newCmd) := by
  unfold checkBodyMotion updateDeviation
  simp [h]

/-- A tick under threshold with the counter at zero, in full. -/
theorem checkBodyMotion_level (env : Env) (inp : AttitudeInput) (s : ControlState)
    (newCmd : Command.Command) (h : ¬ overThreshold env inp.updated)
    (hb : s.balanceRecover = 0) :
    checkBodyMotion env inp s newCmd =
      (updateDeviation env false { s with attitude := inp.updated }, newCmd) := by
  unfold checkBodyMotion
  simp [h, hb]

/-- A tick under threshold that brings the counter to zero, in full. -/
theorem checkBodyMotion_complete (env : Env) (inp : AttitudeInput) (s : ControlState)
    (newCmd : Command.Command) (h : ¬ overThreshold env inp.updated)
    (hb : s.balanceRecover ≠ 0) (hz : (s.balanceRecover - 1) % 256 = 0) :
    checkBodyMotion env inp s newCmd =
      (updateDeviation env false
        { s with attitude := inp.reupdated, balanceRecover := 0,
                 lastCmd := Command.Command.ofSimple Command.Simple.Balance,
                 out := s.out ++ [Event.meow []] },
       s.lastCmd) := by
  unfold checkBodyMotion
  simp [h, hb, hz]

/-- A tick under threshold that leaves the counter nonzero, in full. -/
theorem checkBodyMotion_recovering (env : Env) (inp : AttitudeInput) (s : ControlState)
    (newCmd : Command.Command) (h : ¬ overThreshold env inp.updated)
    (hb : s.balanceRecover ≠ 0) (hz : (s.balanceRecover - 1) % 256 ≠ 0) :
    checkBodyMotion env inp s newCmd =
      ({ s with attitude := env.attReset inp.updated,
                balanceRecover := (s.balanceRecover - 1) % 256,
                rollDeviation := 0, pitchDeviation := 0 },
       newCmd) := by
  unfold checkBodyMotion updateDeviation
  simp [h, hb, hz]

/-- The deviation update keeps the command, the counter and the record of
calls. -/
theorem updateDeviation_fields (env : Env) (b : Bool) (s : ControlState) :
    (updateDeviation env b s).lastCmd = s.lastCmd
      ∧ (updateDeviation env b s).balanceRecover = s.balanceRecover
      ∧ (updateDeviation env b s).out = s.out := by
  unfold updateDeviation
  cases b <;> simp

/-- C4: a tick over threshold sets the recovery counter to 10; when the reading
of tick `t` is over threshold and every later reading is under it, the counter
on entry to tick `t + m` is `11 - m` for `m = 1..11` (one decrement per tick),
ticks `t + 1 .. t + 9` return the pending command untouched with the deviation
terms at zero, the tenth under-threshold tick `t + 10` completes the recovery
(previous command returned, `Balance` installed), and tick `t + 11` runs as
Level: counter 0 on entry, no command emitted, deviation terms smoothed.  Only
the counter is assumed to be carried from tick to tick; all other state may
change between the ticks. -/
theorem C4_recovery_timeline (env : Env) (S : Nat → ControlState) (I : Nat → AttitudeInput)
    (hlink : ∀ k, (S (k + 1)).balanceRecover =
      (checkBodyMotion env (I k) (S k) Command.Command.none).1.balanceRecover)
    (t : Nat) (hover : overThreshold env (I t).updated)
    (hunder : ∀ k, t < k → ¬ overThreshold env (I k).updated) :
    (∀ k, overThreshold env (I k).updated →
        (checkBodyMotion env (I k) (S k) Command.Command.none).1.balanceRecover = 10)
      ∧ (∀ m, 1 ≤ m → m ≤ 11 → (S (t + m)).balanceRecover = 11 - m)
      ∧ (∀ m, 1 ≤ m → m ≤ 9 →
          checkBodyMotion env (I (t + m)) (S (t + m)) Command.Command.none =
            ({ S (t + m) with attitude := env.attReset (I (t + m)).updated,
                              balanceRecover := 10 - m,
                              rollDeviation := 0, pitchDeviation := 0 },
             Command.Command.none))
      ∧ checkBodyMotion env (I (t + 10)) (S (t + 10)) Command.Command.none =
          (updateDeviation env false
            { S (t + 10) with attitude := (I (t + 10)).reupdated, balanceRecover := 0,
                              lastCmd := Command.Command.ofSimple Command.Simple.Balance,
                              out := (S (t + 10)).out ++ [Event.meow []] },
           (S (t + 10)).lastCmd)
      ∧ checkBodyMotion env (I (t + 11)) (S (t + 11)) Command.Command.none =
          (updateDeviation env false { S (t + 11) with attitude := (I (t + 11)).updated },
           Command.Command.none) := by
  have hcount : ∀ m, 1 ≤ m → m ≤ 11 → (S (t + m)).balanceRecover = 11 - m := by
    intro m
    induction m with
    | zero => intro h; omega
    | succ n ih =>
      intro _ hn
      rw [← Nat.add_assoc, hlink, checkBodyMotion_counter]
      by_cases hn0 : n = 0
      · subst hn0
        simp [hover]
      · have hu := hunder (t + n) (by omega)
        have hc := ih (by omega) (by omega)
        simp only [hu, if_false, hc]
        have : 11 - n ≠ 0 := by omega
        simp only [this, ne_eq, not_false_eq_true, if_true]
        omega
  refine ⟨?_, hcount, ?_, ?_, ?_⟩
  · intro k hk
    rw [checkBodyMotion_counter]
    simp [hk]
  · intro m h1 h9
    have hu := hunder (t + m) (by omega)
    have hc := hcount m h1 (by omega)
    rw [checkBodyMotion_recovering env _ _ _ hu (by rw [hc]; omega) (by rw [hc]; omega)]
    have : (11 - m - 1) % 256 = 10 - m := by omega
    rw [hc, this]
  · have hu := hunder (t + 10) (by omega)
    have hc := hcount 10 (by omega) (by omega)
    exact checkBodyMotion_complete env _ _ _ hu (by rw [hc]; omega) (by rw [hc])
  · have hu := hunder (t + 11) (by omega)
    have hc := hcount 11 (by omega) (by omega)
    exact checkBodyMotion_level env _ _ _ hu (by rw [hc])

/-- The C4 timeline on a robot pitched on tick 0 and level afterwards: counter
10 after the tilt, 1 on entry to the tenth level tick, 0 on entry to the
eleventh. -/
theorem C4_recovery_timeline_witness :
    overThreshold exampleEnv (tipThenLevel 0).updated
      ∧ (bodyRun exampleEnv tipThenLevel exampleState 1).balanceRecover = 10
      ∧ (bodyRun exampleEnv tipThenLevel exampleState 10).balanceRecover = 1
      ∧ (bodyRun exampleEnv tipThenLevel exampleState 11).balanceRecover = 0 := by
  have hover : overThreshold exampleEnv (tipThenLevel 0).updated := by decide!
  have hunder : ∀ k, 0 < k → ¬ overThreshold exampleEnv (tipThenLevel k).updated := by
    intro k hk
    have : tipThenLevel k = levelInput := by
      unfold tipThenLevel
      rw [if_neg (by omega)]
    rw [this]
    decide!
  have h := C4_recovery_timeline exampleEnv (bodyRun exampleEnv tipThenLevel exampleState)
    tipThenLevel (fun _ => rfl) 0 hover hunder
  have h1 := h.2.1 1 (by omega) (by omega)
  have h10 := h.2.1 10 (by omega) (by omega)
  have h11 := h.2.1 11 (by omega) (by omega)
  simp only [Nat.zero_add] at h1 h10 h11
  exact ⟨hover, h1, h10, h11⟩

/-- C5: with an 8 bit counter, `checkBodyMotion` restores exactly on an
under-threshold tick that takes the counter from 1 to 0: there the command
handed back is the `lastCmd` of entry, `lastCmd` becomes `Balance`, the cue is
sounded, and `doAttitudeTask` passes the handed-back command on to
`processNewCommand`; on every other tick `lastCmd` is untouched, no cue is
sounded and the command handed back is the one passed in or `Recover`. -/
theorem C5_restore_exactly_at_one (env : Env) (inp : AttitudeInput) (s : ControlState)
    (newCmd : Command.Command) (hb : s.balanceRecover < 256) :
    ((¬ overThreshold env inp.updated ∧ s.balanceRecover = 1) →
        (checkBodyMotion env inp s newCmd).2 = s.lastCmd
          ∧ (checkBodyMotion env inp s newCmd).1.lastCmd
              = Command.Command.ofSimple Command.Simple.Balance
          ∧ (checkBodyMotion env inp s newCmd).1.balanceRecover = 0
          ∧ (checkBodyMotion env inp s newCmd).1.out = s.out ++ [Event.meow []]
          ∧ (s.checkGyro = true → ∀ sensor fuel,
              doAttitudeTask env inp sensor fuel s =
                processNewCommand env sensor fuel
                  (checkBodyMotion env inp s Command.Command.none).1 s.lastCmd))
      ∧ (¬ (¬ overThreshold env inp.updated ∧ s.balanceRecover = 1) →
        (checkBodyMotion env inp s newCmd).1.lastCmd = s.lastCmd
          ∧ (checkBodyMotion env inp s newCmd).1.out = s.out
          ∧ ((checkBodyMotion env inp s newCmd).2 = newCmd
              ∨ (checkBodyMotion env inp s newCmd).2
                  = Command.Command.ofSimple Command.Simple.Recover)) := by
  constructor
  · rintro ⟨hu, h1⟩
    have hne : s.balanceRecover ≠ 0 := by omega
    have hz : (s.balanceRecover - 1) % 256 = 0 := by rw [h1]
    have hfs := fun c => checkBodyMotion_complete env inp s c hu hne hz
    refine ⟨?_, ?_, ?_, ?_, ?_⟩
    · rw [hfs]
    · rw [hfs]; exact (updateDeviation_fields env false _).1
    · rw [hfs]; exact (updateDeviation_fields env false _).2.1
    · rw [hfs]; exact (updateDeviation_fields env false _).2.2
    · intro hg sensor fuel
      unfold doAttitudeTask
      simp only [hg, if_true]
      rw [hfs]
  · intro hn
    by_cases ho : overThreshold env inp.updated
    · rw [checkBodyMotion_over env inp s newCmd ho]
      refine ⟨rfl, rfl, ?_⟩
      by_cases h1 : s.balanceRecover = 0
      · simp [h1]
      · by_cases h2 : |inp.updated.roll| > LARGE_ROLL_RAD env
        · simp [h1, h2]
        · simp [h1, h2]
    · by_cases h0 : s.balanceRecover = 0
      · rw [checkBodyMotion_level env inp s newCmd ho h0]
        exact ⟨(updateDeviation_fields env false _).1,
          (updateDeviation_fields env false _).2.2, Or.inl rfl⟩
      · have h1 : s.balanceRecover ≠ 1 := fun h => hn ⟨ho, h⟩
        rw [checkBodyMotion_recovering env inp s newCmd ho h0 (by omega)]
        exact ⟨rfl, rfl, Or.inl rfl⟩

/-- The C5 restore on a walking robot whose counter is at one and whose reading
is level: the walk command is handed back and `Balance` is installed. -/
theorem C5_restore_exactly_at_one_witness :
    settlingState.balanceRecover < 256
      ∧ (checkBodyMotion exampleEnv levelInput settlingState Command.Command.none).2
          = walkForward
      ∧ (checkBodyMotion exampleEnv levelInput settlingState Command.Command.none).1.lastCmd
          = Command.Command.ofSimple Command.Simple.Balance :=
  have h := (C5_restore_exactly_at_one exampleEnv levelInput settlingState
    Command.Command.none (by decide!)).1 ⟨by decide!, rfl⟩
  ⟨by decide!, h.1, h.2.1⟩

/-- C6: the command `checkBodyMotion` hands back is the one passed in, or
`Recover` on a tick whose roll is beyond `LARGE_ROLL`, or the previous command
restored by a completed recovery; a tick on which only the pitch is beyond its
threshold hands back the command passed in. -/
theorem C6_recover_only_on_roll (env : Env) (inp : AttitudeInput) (s : ControlState)
    (newCmd : Command.Command) :
    ((checkBodyMotion env inp s newCmd).2 = newCmd
        ∨ ((checkBodyMotion env inp s newCmd).2
              = Command.Command.ofSimple Command.Simple.Recover
            ∧ |inp.updated.roll| > LARGE_ROLL_RAD env)
        ∨ ((checkBodyMotion env inp s newCmd).2 = s.lastCmd
            ∧ ¬ overThreshold env inp.updated
            ∧ s.balanceRecover ≠ 0
            ∧ (checkBodyMotion env inp s newCmd).1.balanceRecover = 0))
      ∧ (|inp.updated.pitch| > LARGE_PITCH_RAD env →
          ¬ |inp.updated.roll| > LARGE_ROLL_RAD env →
          (checkBodyMotion env inp s newCmd).2 = newCmd) := by
  constructor
  · by_cases ho : overThreshold env inp.updated
    · rw [checkBodyMotion_over env inp s newCmd ho]
      by_cases h1 : s.balanceRecover = 0
      · simp [h1]
      · by_cases h2 : |inp.updated.roll| > LARGE_ROLL_RAD env
        · right; left
          simp [h1, h2]
        · simp [h1, h2]
    · by_cases h0 : s.balanceRecover = 0
      · rw [checkBodyMotion_level env inp s newCmd ho h0]
        exact Or.inl rfl
      · by_cases hz : (s.balanceRecover - 1) % 256 = 0
        · rw [checkBodyMotion_complete env inp s newCmd ho h0 hz]
          exact Or.inr (Or.inr ⟨rfl, ho, h0, (updateDeviation_fields env false _).2.1⟩)
        · rw [checkBodyMotion_recovering env inp s newCmd ho h0 hz]
          exact Or.inl rfl
  · intro hp hr
    rw [checkBodyMotion_over env inp s newCmd (Or.inl hp)]
    simp [hr]

/-- The C6 pitch-only tick on a robot that is already recovering: no override,
the empty command comes back. -/
theorem C6_recover_only_on_roll_witness :
    |pitchedInput.updated.pitch| > LARGE_PITCH_RAD exampleEnv
      ∧ ¬ |pitchedInput.updated.roll| > LARGE_ROLL_RAD exampleEnv
      ∧ (checkBodyMotion exampleEnv pitchedInput settlingState Command.Command.none).2
          = Command.Command.none :=
  ⟨by decide!, by decide!,
    (C6_recover_only_on_roll exampleEnv pitchedInput settlingState Command.Command.none).2
      (by decide!) (by decide!)⟩

/-- C7: after a tick on which the attitude is over threshold, or on which the
counter is still nonzero after its decrement, both deviation terms are exactly
zero, whatever they were before and whatever the reading and the nominal
attitude of the skill are. -/
theorem C7_deviation_zero_while_recovering (env : Env) (inp : AttitudeInput)
    (s : ControlState) (newCmd : Command.Command)
    (h : overThreshold env inp.updated
      ∨ (s.balanceRecover ≠ 0 ∧ (s.balanceRecover - 1) % 256 ≠ 0)) :
    (checkBodyMotion env inp s newCmd).1.rollDeviation = 0
      ∧ (checkBodyMotion env inp s newCmd).1.pitchDeviation = 0 := by
  by_cases ho : overThreshold env inp.updated
  · rw [checkBodyMotion_over env inp s newCmd ho]
    exact ⟨rfl, rfl⟩
  · rcases h with h | ⟨h0, hz⟩
    · exact absurd h ho
    · rw [checkBodyMotion_recovering env inp s newCmd ho h0 hz]
      exact ⟨rfl, rfl⟩

/-- The C7 zeroing on a pitched robot whose deviation terms were 3 and 4. -/
theorem C7_deviation_zero_while_recovering_witness :
    overThreshold exampleEnv pitchedInput.updated
      ∧ settlingState.rollDeviation = 3
      ∧ (checkBodyMotion exampleEnv pitchedInput settlingState Command.Command.none).1.rollDeviation
          = 0
      ∧ (checkBodyMotion exampleEnv pitchedInput settlingState
          Command.Command.none).1.pitchDeviation = 0 :=
  have h := C7_deviation_zero_while_recovering exampleEnv pitchedInput settlingState
    Command.Command.none (Or.inl (by decide!))
  ⟨by decide!, rfl, h.1, h.2⟩

/-! ## Command routing: lemmas and claims -/

/-- A state agrees with itself. -/
theorem sameControl_refl (a : ControlState) : sameControl a a := by
  cases a; simp [sameControl]

/-- Agreement up to attitude and record composes. -/
theorem sameControl_trans {a b c : ControlState} (h1 : sameControl a b) (h2 : sameControl b c) :
    sameControl a c := by
  cases a; cases b; cases c
  simp [sameControl] at *
  obtain ⟨e1, e2, e3, e4, e5, e6, e7, e8, e9, e10, e11, e12, e13, e14⟩ := h1
  subst e1 e2 e3 e4 e5 e6 e7 e8 e9 e10 e11 e12 e13 e14
  exact h2

/-- Recording calls keeps the control fields. -/
theorem sameControl_emit (a : ControlState) (es : List Event) : sameControl a (emit a es) := by
  cases a; simp [sameControl, emit]

/-- A trigger wait that ends changes the attitude and the record only. -/
theorem waitTrigger_sameControl (env : Env) (sensor : Nat → Attitude) (axis : Int) (trig : ℚ) :
    ∀ (fuel : Nat) (prev : ℚ) (k : Nat) (s : ControlState) (r : ControlState × Nat),
      waitTrigger env sensor axis trig fuel prev k s = some r → sameControl s r.1 := by
  intro fuel
  induction fuel with
  | zero => intro prev k s r h; simp [waitTrigger] at h
  | succ f ih =>
    intro prev k s r h
    rw [waitTrigger] at h
    have hstep : sameControl s
        (emit { s with attitude := sensor k }
          [Event.printAngles (env.angleFromAxis (sensor k) axis) trig]) := by
      cases s; simp [sameControl, emit]
    split_ifs at h
    · simp only [Option.some.injEq] at h
      rw [← h]
      exact hstep
    · exact sameControl_trans hstep (ih _ _ _ _ h)

/-- A frame that ends changes the attitude and the record only. -/
theorem playFrame_sameControl (env : Env) (sensor : Nat → Attitude) (maxPolls : Nat)
    (skill : Skill.Skill) (c k : Nat) (s : ControlState) (r : ControlState × Nat)
    (h : playFrame env sensor maxPolls skill c k s = some r) : sameControl s r.1 := by
  unfold playFrame at h
  simp only at h
  by_cases ht : readAt skill.spec (18 + (c : Int) * 20) ≠ 0
  · rw [if_pos ht] at h
    exact sameControl_trans (sameControl_emit s _)
      (waitTrigger_sameControl env sensor _ _ _ _ _ _ _ h)
  · rw [if_neg ht] at h
    cases h
    rw [emit_emit]
    exact sameControl_emit s _

/-- A frame loop that ends changes the attitude and the record only. -/
theorem behaviorLoop_sameControl (env : Env) (sensor : Nat → Attitude) (maxPolls : Nat)
    (skill : Skill.Skill) :
    ∀ (fuel c : Nat) (rep : Int) (k : Nat) (s r : ControlState),
      behaviorLoop env sensor maxPolls skill fuel c rep k s = some r → sameControl s r := by
  intro fuel
  induction fuel with
  | zero => intro c rep k s r h; simp [behaviorLoop] at h
  | succ f ih =>
    intro c rep k s r h
    rw [behaviorLoop] at h
    by_cases hc : c < skill.frames
    · rw [if_pos hc] at h
      cases hp : playFrame env sensor maxPolls skill c k s with
      | none => rw [hp] at h; simp at h
      | some p =>
        have h1 := playFrame_sameControl env sensor maxPolls skill c k s p hp
        rw [hp] at h
        simp only at h
        split_ifs at h <;> exact sameControl_trans h1 (ih _ _ _ _ _ h)
    · rw [if_neg hc] at h
      cases h
      exact sameControl_refl s

/-- A playback that ends changes the attitude and the record only. -/
theorem doBehaviorSkill_sameControl (env : Env) (sensor : Nat → Attitude) (fuel : Nat)
    (s r : ControlState) (h : doBehaviorSkill env sensor fuel s = some r) : sameControl s r :=
  behaviorLoop_sameControl env sensor fuel s.skill fuel 0 _ 0 s r h

/-- Lines 523-531 keep the skill. -/
@[simp] theorem setOffsetLR_skill (s : ControlState) (c : Command.Command) :
    (setOffsetLR s c).skill = s.skill := by
  unfold setOffsetLR
  split_ifs
  · split
    · split_ifs <;> rfl
    · rfl
  · rfl

/-- Lines 523-531 keep the gyro flag. -/
@[simp] theorem setOffsetLR_checkGyro (s : ControlState) (c : Command.Command) :
    (setOffsetLR s c).checkGyro = s.checkGyro := by
  unfold setOffsetLR
  split_ifs
  · split
    · split_ifs <;> rfl
    · rfl
  · rfl

/-- Lines 523-531 keep the motion flag. -/
@[simp] theorem setOffsetLR_enableMotion (s : ControlState) (c : Command.Command) :
    (setOffsetLR s c).enableMotion = s.enableMotion := by
  unfold setOffsetLR
  split_ifs
  · split
    · split_ifs <;> rfl
    · rfl
  · rfl

/-- Lines 523-531 call no collaborator. -/
@[simp] theorem setOffsetLR_out (s : ControlState) (c : Command.Command) :
    (setOffsetLR s c).out = s.out := by
  unfold setOffsetLR
  split_ifs
  · split
    · split_ifs <;> rfl
    · rfl
  · rfl

/-- The offset the install block gives the look joint: 15 for a move to the
left, -15 for a move to the right, 0 otherwise. -/
theorem setOffsetLR_offsetLR (s : ControlState) (c : Command.Command) :
    (setOffsetLR s c).offsetLR =
      if c.type = Command.CmdType.Move then
        match c.getMove with
        | some m =>
          if m.direction = Command.Direction.Left then 15
          else if m.direction = Command.Direction.Right then -15 else 0
        | none => 0
      else 0 := by
  unfold setOffsetLR
  split_ifs
  · split
    · split_ifs <;> rfl
    · rfl
  · rfl

/-- A command without a move payload gets the offset 0. -/
theorem setOffsetLR_offset_of_no_move (s : ControlState) (c : Command.Command)
    (h : c.type ≠ Command.CmdType.Move ∨ c.getMove = none) : (setOffsetLR s c).offsetLR = 0 := by
  unfold setOffsetLR
  split_ifs with ht
  · rcases h with h | h
    · exact absurd ht h
    · rw [h]
  · rfl

/-- The state the install block leaves when the skill loaded is not a
behaviour. -/
theorem install_not_behaviour (env : Env) (sensor : Nat → Attitude) (fuel : Nat)
    (s : ControlState) (c : Command.Command)
    (h : (env.load c s.skill).type ≠ Skill.SkillType.Behaviour) :
    ∃ r, install env sensor fuel s c = some r ∧ r.lastCmd = c
      ∧ r.skill = env.load c s.skill ∧ r.frameIndex = 0 ∧ r.checkGyro = s.checkGyro
      ∧ r.offsetLR = (setOffsetLR s c).offsetLR
      ∧ r.enableMotion
          = (if c = Command.Command.ofSimple Command.Simple.Rest then false else s.enableMotion) := by
  by_cases hi : (env.load c s.skill).type = Skill.SkillType.Invalid
  · by_cases hr : c = Command.Command.ofSimple Command.Simple.Rest
    · subst hr
      simp [install, emit, h, hi, setOffsetLR_offsetLR]
    · simp [install, emit, h, hi, hr, setOffsetLR_offsetLR]
  · by_cases hr : c = Command.Command.ofSimple Command.Simple.Rest
    · subst hr
      simp [install, emit, h, hi, setOffsetLR_offsetLR]
    · simp [install, emit, h, hi, hr, setOffsetLR_offsetLR]

/-- The fields two states in agreement share. -/
theorem sameControl_fields {a b : ControlState} (h : sameControl a b) :
    b.lastCmd = a.lastCmd ∧ b.skill = a.skill ∧ b.frameIndex = a.frameIndex
      ∧ b.checkGyro = a.checkGyro ∧ b.offsetLR = a.offsetLR
      ∧ b.enableMotion = a.enableMotion ∧ b.currentAdjust = a.currentAdjust
      ∧ b.firstMotionJoint = a.firstMotionJoint ∧ b.balanceRecover = a.balanceRecover := by
  unfold sameControl at h
  rw [← h]
  simp

/-- The fields lines 543-547 leave. -/
theorem finishBehaviour_fields (env : Env) (s : ControlState) :
    (finishBehaviour env s).lastCmd = Command.Command.ofSimple Command.Simple.Balance
      ∧ (finishBehaviour env s).skill
          = env.load (Command.Command.ofSimple Command.Simple.Balance) s.skill
      ∧ (finishBehaviour env s).frameIndex = s.frameIndex
      ∧ (finishBehaviour env s).checkGyro = s.checkGyro
      ∧ (finishBehaviour env s).offsetLR = s.offsetLR
      ∧ (finishBehaviour env s).currentAdjust = List.replicate env.DOF 0
      ∧ (finishBehaviour env s).enableMotion = s.enableMotion := by
  unfold finishBehaviour doPostureCommand
  by_cases h : (env.load (Command.Command.ofSimple Command.Simple.Balance) s.skill).type
      = Skill.SkillType.Posture
  · simp [h, emit]
  · simp [h, emit]

/-- The state the install block leaves when the skill loaded is a behaviour and
its playback ends. -/
theorem install_behaviour (env : Env) (sensor : Nat → Attitude) (fuel : Nat)
    (s : ControlState) (c : Command.Command)
    (h : (env.load c s.skill).type = Skill.SkillType.Behaviour)
    (r : ControlState) (hr : install env sensor fuel s c = some r) :
    r.lastCmd = Command.Command.ofSimple Command.Simple.Balance
      ∧ r.skill = env.load (Command.Command.ofSimple Command.Simple.Balance)
          (env.load c s.skill)
      ∧ r.frameIndex = 0 ∧ r.checkGyro = s.checkGyro
      ∧ r.offsetLR = (setOffsetLR s c).offsetLR
      ∧ r.currentAdjust = List.replicate env.DOF 0
      ∧ r.enableMotion
          = (if c = Command.Command.ofSimple Command.Simple.Rest then false else s.enableMotion) := by
  unfold install at hr
  simp only [emit, setOffsetLR_skill, h, if_true] at hr
  rw [Option.map_map] at hr
  rw [Option.map_eq_some'] at hr
  obtain ⟨s5, hs5, hfin⟩ := hr
  obtain ⟨e1, e2, e3, e4, e5, e6, e7, _⟩ := sameControl_fields (doBehaviorSkill_sameControl _ _ _ _ _ hs5)
  obtain ⟨f1, f2, f3, f4, f5, f6, f7⟩ := finishBehaviour_fields env s5
  simp only [Function.comp] at hfin
  by_cases hrest : c = Command.Command.ofSimple Command.Simple.Rest
  · rw [if_pos hrest] at hfin
    rw [← hfin]
    simp [emit, f1, f2, f3, f4, f5, f6, f7, e2, e3, e4, e5, e6, hrest, setOffsetLR_offsetLR]
  · rw [if_neg hrest] at hfin
    rw [← hfin]
    simp [emit, f1, f2, f3, f4, f5, f6, f7, e2, e3, e4, e5, e6, hrest, setOffsetLR_offsetLR]

/-- The joint loop of `MoveSequentially` keeps the command, the frame index, the offset and the two flags. -/
theorem moveSequentially_fold_fields (cmd : Command.WithArgs) (l : List Nat) :
    ∀ s : ControlState,
      (l.foldl (fun acc _ => moveSequentiallyStep cmd acc) s).lastCmd = s.lastCmd
      ∧ (l.foldl (fun acc _ => moveSequentiallyStep cmd acc) s).frameIndex = s.frameIndex
      ∧ (l.foldl (fun acc _ => moveSequentiallyStep cmd acc) s).offsetLR = s.offsetLR
      ∧ (l.foldl (fun acc _ => moveSequentiallyStep cmd acc) s).checkGyro = s.checkGyro
      ∧ (l.foldl (fun acc _ => moveSequentiallyStep cmd acc) s).enableMotion = s.enableMotion := by
  induction l with
  | nil => intro s; simp
  | cons x xs ih =>
    intro s
    rw [List.foldl_cons]
    obtain ⟨h1, h2, h3, h4, h5⟩ := ih (moveSequentiallyStep cmd s)
    rw [h1, h2, h3, h4, h5]
    simp [moveSequentiallyStep, emit]

/-- The dispatch of a malformed command: the error is printed, a `WithArgs` command has disabled motion, and the command is handed on unchanged. -/
theorem dispatch_malformed (env : Env) (s : ControlState) (c : Command.Command)
    (hm : malformed env c) :
    ∃ m, dispatch env s c =
      (emit { s with enableMotion :=
                if c.type = Command.CmdType.WithArgs then false else s.enableMotion }
        [Event.print m], c) := by
  rcases hm with ⟨h1, h2⟩ | ⟨h1, h2⟩ | ⟨h1, h2⟩ | ⟨h1, args, h2, h3⟩
  · refine ⟨Msg.MoveErr, ?_⟩
    simp [dispatch, h1, h2]
  · refine ⟨Msg.SimpleErr, ?_⟩
    simp [dispatch, h1, h2]
  · refine ⟨Msg.WithArgsErr, ?_⟩
    simp [dispatch, h1, h2]
  · refine ⟨Msg.SimultaneousErr, ?_⟩
    simp [dispatch, h1, h2, dispatchWithArgs, Command.WithArgs.len, h3]

/-- A malformed command is neither None nor `Rest`, and carries no move. -/
theorem malformed_ne_none (env : Env) (c : Command.Command) (hm : malformed env c) :
    c ≠ Command.Command.none ∧ c ≠ Command.Command.ofSimple Command.Simple.Rest
      ∧ (c.type ≠ Command.CmdType.Move ∨ c.getMove = none) := by
  rcases hm with ⟨h1, h2⟩ | ⟨h1, h2⟩ | ⟨h1, h2⟩ | ⟨h1, args, h2, h3⟩
  · refine ⟨?_, ?_, Or.inr h2⟩ <;> (intro h; rw [h] at h1; simp [Command.Command.none, Command.Command.ofSimple] at h1)
  · refine ⟨?_, ?_, Or.inl (by rw [h1]; decide)⟩
    · intro h; rw [h] at h1; simp [Command.Command.none] at h1
    · intro h; rw [h] at h2; simp [Command.Command.ofSimple, Command.Command.getSimple] at h2
  · refine ⟨?_, ?_, Or.inl (by rw [h1]; decide)⟩ <;> (intro h; rw [h] at h1; simp [Command.Command.none, Command.Command.ofSimple] at h1)
  · refine ⟨?_, ?_, Or.inl (by rw [h1]; decide)⟩ <;> (intro h; rw [h] at h1; simp [Command.Command.none, Command.Command.ofSimple] at h1)

/-- C3 as stated fails: a `MoveSimultaneously` with three arguments, sent to a
robot turning left in frame 3 of its gait, is reported and then installed like
any new command: motion is disabled, the command becomes `lastCmd`, the gait is
replaced by the skill the loader has for it, and frame index and left/right
offset are reset. -/
theorem C3_malformed_changes_state_counterexample :
    malformed exampleEnv shortSimultaneous
      ∧ (turningState.lastCmd, turningState.skill.type, turningState.enableMotion,
          turningState.frameIndex, turningState.offsetLR)
        = (Command.Command.ofMove ⟨Command.Pace.Medium, Command.Direction.Left⟩,
            Skill.SkillType.Gait, true, 3, 15)
      ∧ (processNewCommand exampleEnv levelSensor 0 turningState shortSimultaneous).map
          (fun r => (r.lastCmd, r.skill.type, r.enableMotion, r.frameIndex, r.offsetLR))
        = some (shortSimultaneous, Skill.SkillType.Invalid, false, 0, 0) := by
  refine ⟨?_, by decide!, by decide!⟩
  right; right; right
  exact ⟨rfl, [1, 2, 3], rfl, by decide⟩

/-- C3, amended: a malformed command is reported and its own action is skipped,
but it is not dropped.  A `WithArgs` command disables motion.  When the command
equals `lastCmd`, nothing else changes: the call returns the state of entry with
the error print and the beep recorded.  When it differs from `lastCmd` it is
installed like any new command: the skill is replaced by the one the loader has
for it, frame index and left/right offset become 0, gyro checking is unchanged,
and `lastCmd` becomes the command, or `Balance` when the skill loaded is a
behaviour whose playback ends. -/
theorem C3_malformed_not_dropped (env : Env) (sensor : Nat → Attitude) (fuel : Nat)
    (s : ControlState) (c : Command.Command) (hm : malformed env c) :
    (c = s.lastCmd → ∃ m, processNewCommand env sensor fuel s c =
        some (emit { s with enableMotion :=
                      if c.type = Command.CmdType.WithArgs then false else s.enableMotion }
          [Event.print m, Event.beep [8]]))
      ∧ (c ≠ s.lastCmd → (env.load c s.skill).type ≠ Skill.SkillType.Behaviour →
          ∃ r, processNewCommand env sensor fuel s c = some r
            ∧ r.lastCmd = c ∧ r.skill = env.load c s.skill ∧ r.frameIndex = 0
            ∧ r.offsetLR = 0 ∧ r.checkGyro = s.checkGyro
            ∧ r.enableMotion
                = (if c.type = Command.CmdType.WithArgs then false else s.enableMotion))
      ∧ (c ≠ s.lastCmd → (env.load c s.skill).type = Skill.SkillType.Behaviour →
          ∀ r, processNewCommand env sensor fuel s c = some r →
            r.lastCmd = Command.Command.ofSimple Command.Simple.Balance
              ∧ r.skill = env.load (Command.Command.ofSimple Command.Simple.Balance)
                  (env.load c s.skill)
              ∧ r.frameIndex = 0 ∧ r.offsetLR = 0 ∧ r.checkGyro = s.checkGyro
              ∧ r.enableMotion
                  = (if c.type = Command.CmdType.WithArgs then false else s.enableMotion)) := by
  obtain ⟨m, hd⟩ := dispatch_malformed env s c hm
  obtain ⟨hne, hrest, hmove⟩ := malformed_ne_none env c hm
  refine ⟨?_, ?_, ?_⟩
  · intro heq
    refine ⟨m, ?_⟩
    unfold processNewCommand
    simp only [hd, ne_eq, hne, not_false_eq_true, if_true, true_and]
    rw [if_neg (by simp [emit, heq])]
    simp [emit]
  · intro hdiff hnb
    unfold processNewCommand
    simp only [hd, ne_eq, hne, not_false_eq_true, if_true, true_and]
    rw [if_pos (by simpa [emit] using hdiff)]
    obtain ⟨r, h1, h2, h3, h4, h5, h6, h7⟩ := install_not_behaviour env sensor fuel
      (emit (emit { s with enableMotion :=
          if c.type = Command.CmdType.WithArgs then false else s.enableMotion }
        [Event.print m]) [Event.beep [8]]) c (by simpa [emit] using hnb)
    refine ⟨r, h1, h2, by simpa [emit] using h3, h4, ?_, by simpa [emit] using h5, ?_⟩
    · rw [h6]
      exact setOffsetLR_offset_of_no_move _ c hmove
    · rw [h7, if_neg hrest]
      simp [emit]
  · intro hdiff hb r hr
    unfold processNewCommand at hr
    simp only [hd, ne_eq, hne, not_false_eq_true, if_true, true_and] at hr
    rw [if_pos (by simpa [emit] using hdiff)] at hr
    obtain ⟨h1, h2, h3, h4, h5, _, h7⟩ := install_behaviour env sensor fuel _ c
      (by simpa [emit] using hb) r hr
    refine ⟨h1, by simpa [emit] using h2, h3, ?_, by simpa [emit] using h4, ?_⟩
    · rw [h5]
      exact setOffsetLR_offset_of_no_move _ c hmove
    · rw [h7, if_neg hrest]
      simp [emit]

/-- The C3 behaviour on the three-argument `MoveSimultaneously`, re-sent when it
is already the last command: only motion is disabled. -/
theorem C3_malformed_not_dropped_witness :
    malformed exampleEnv shortSimultaneous
      ∧ ∃ m, processNewCommand exampleEnv levelSensor 0
          { turningState with lastCmd := shortSimultaneous } shortSimultaneous =
        some (emit { turningState with lastCmd := shortSimultaneous, enableMotion := false }
          [Event.print m, Event.beep [8]]) := by
  have hm : malformed exampleEnv shortSimultaneous := by
    right; right; right
    exact ⟨rfl, [1, 2, 3], rfl, by decide⟩
  exact ⟨hm, (C3_malformed_not_dropped exampleEnv levelSensor 0
    { turningState with lastCmd := shortSimultaneous } shortSimultaneous hm).1 rfl⟩

/-- What the `switch` on a `Simple` command leaves: a resumed `Pause` clears the command; `Rest` installs itself and loads its skill; every other token keeps `lastCmd`. -/
theorem dispatchSimple_cases (env : Env) (s : ControlState) (sm : Command.Simple)
    (hl : Command.Command.ofSimple sm ≠ s.lastCmd) :
    (sm = Command.Simple.Pause ∧ s.enableMotion = false
        ∧ dispatchSimple env s (Command.Command.ofSimple sm) sm
            = ({ s with enableMotion := true }, Command.Command.none))
      ∨ ((dispatchSimple env s (Command.Command.ofSimple sm) sm).2 = Command.Command.ofSimple sm
          ∧ (dispatchSimple env s (Command.Command.ofSimple sm) sm).1.lastCmd = s.lastCmd
          ∧ (dispatchSimple env s (Command.Command.ofSimple sm) sm).1.frameIndex = s.frameIndex
          ∧ sm ≠ Command.Simple.Rest)
      ∨ ((dispatchSimple env s (Command.Command.ofSimple sm) sm).2 = Command.Command.ofSimple sm
          ∧ (dispatchSimple env s (Command.Command.ofSimple sm) sm).1.lastCmd
              = Command.Command.ofSimple sm
          ∧ (dispatchSimple env s (Command.Command.ofSimple sm) sm).1.skill
              = env.load (Command.Command.ofSimple sm) s.skill
          ∧ (dispatchSimple env s (Command.Command.ofSimple sm) sm).1.frameIndex = s.frameIndex
          ∧ sm = Command.Simple.Rest) := by
  cases sm with
  | Rest =>
    right; right
    unfold dispatchSimple doPostureCommand
    by_cases h : (env.load (Command.Command.ofSimple Command.Simple.Rest) s.skill).type
        = Skill.SkillType.Posture
    · simp [h, emit]
    · simp [h, emit]
  | Pause =>
    by_cases h : s.enableMotion = true
    · right; left
      simp [dispatchSimple, h, emit]
    · left
      simp at h
      simp [dispatchSimple, h]
  | GyroToggle => right; left; simp [dispatchSimple]
  | SaveServoCalibration => right; left; simp [dispatchSimple, emit]
  | AbortServoCalibration => right; left; simp [dispatchSimple, emit]
  | ShowJointAngles => right; left; simp [dispatchSimple, emit]
  | Recover => right; left; simp [dispatchSimple]
  | Balance => right; left; simp [dispatchSimple]
  | other n => right; left; simp [dispatchSimple]

/-- What the `switch` on a `WithArgs` command leaves: `Calibrate` installs itself and loads its skill; every other operation keeps `lastCmd`. -/
theorem dispatchWithArgs_cases (env : Env) (s : ControlState) (w : Command.WithArgs)
    (hl : Command.Command.ofWithArgs w ≠ s.lastCmd) :
    ((dispatchWithArgs env s (Command.Command.ofWithArgs w) w).lastCmd = s.lastCmd
        ∧ (dispatchWithArgs env s (Command.Command.ofWithArgs w) w).frameIndex = s.frameIndex
        ∧ w.cmd ≠ Command.ArgType.Calibrate)
      ∨ ((dispatchWithArgs env s (Command.Command.ofWithArgs w) w).lastCmd
            = Command.Command.ofWithArgs w
          ∧ (dispatchWithArgs env s (Command.Command.ofWithArgs w) w).skill
              = env.load (Command.Command.ofWithArgs w) s.skill
          ∧ (dispatchWithArgs env s (Command.Command.ofWithArgs w) w).frameIndex = s.frameIndex
          ∧ w.cmd = Command.ArgType.Calibrate) := by
  rcases w with ⟨cmd, args⟩
  cases cmd with
  | Calibrate =>
    right
    unfold dispatchWithArgs dispatchCalibrate
    have hl1 : ¬ s.lastCmd = Command.Command.ofWithArgs ⟨Command.ArgType.Calibrate, args⟩ :=
      fun h => hl h.symm
    by_cases h1 : (env.load (Command.Command.ofWithArgs ⟨Command.ArgType.Calibrate, args⟩)
        s.skill).type = Skill.SkillType.Invalid
    · by_cases h2 : Command.WithArgs.len ⟨Command.ArgType.Calibrate, args⟩ = 2
      · simp [h1, h2, hl1, emit]
      · simp [h1, h2, hl1, emit]
    · by_cases h2 : Command.WithArgs.len ⟨Command.ArgType.Calibrate, args⟩ = 2
      · simp [h1, h2, hl1, emit]
      · simp [h1, h2, hl1, emit]
  | MoveSequentially =>
    left
    unfold dispatchWithArgs
    simp only
    obtain ⟨h1, h2, _⟩ := moveSequentially_fold_fields ⟨Command.ArgType.MoveSequentially, args⟩
      (List.range (toInt16 (Command.WithArgs.len ⟨Command.ArgType.MoveSequentially, args⟩ / 2)).toNat)
      { s with skill := { s.skill with type := Skill.SkillType.Posture } }
    exact ⟨h1, h2, by simp⟩
  | Meow => left; simp [dispatchWithArgs, emit]
  | Beep => left; simp [dispatchWithArgs, emit]
  | MoveSimultaneously =>
    left
    unfold dispatchWithArgs
    by_cases h : Command.WithArgs.len ⟨Command.ArgType.MoveSimultaneously, args⟩ = env.DOF
    · simp [h, emit]
    · simp [h, emit]
  | other n => left; simp [dispatchWithArgs]

/-- A `Pause` on a robot whose motion is disabled enables motion and clears the command. -/
theorem dispatch_resume (env : Env) (s : ControlState) (h : s.enableMotion = false) :
    dispatch env s (Command.Command.ofSimple Command.Simple.Pause)
      = ({ s with enableMotion := true }, Command.Command.none) := by
  simp [dispatch, Command.Command.ofSimple, Command.Command.getSimple, dispatchSimple, h]

/-- What the dispatch leaves for a command that differs from `lastCmd`: a resumed `Pause`, or the command handed on with `lastCmd` kept, or the command handed on and installed by its own case. -/
theorem dispatch_cases (env : Env) (s : ControlState) (c : Command.Command)
    (hl : c ≠ s.lastCmd) :
    (c = Command.Command.ofSimple Command.Simple.Pause ∧ s.enableMotion = false)
      ∨ ((dispatch env s c).2 = c ∧ (dispatch env s c).1.lastCmd = s.lastCmd
          ∧ (dispatch env s c).1.frameIndex = s.frameIndex ∧ ¬ installedByDispatch c)
      ∨ ((dispatch env s c).2 = c ∧ (dispatch env s c).1.lastCmd = c
          ∧ (dispatch env s c).1.skill = env.load c s.skill
          ∧ (dispatch env s c).1.frameIndex = s.frameIndex ∧ installedByDispatch c) := by
  rcases c with ⟨ty, pl⟩
  cases ty with
  | None =>
    right; left
    simp [dispatch, installedByDispatch, Command.Command.ofSimple, Command.Command.ofWithArgs]
  | Move =>
    right; left
    cases pl <;>
      simp [dispatch, Command.Command.getMove, emit, installedByDispatch,
        Command.Command.ofSimple, Command.Command.ofWithArgs]
  | Simple =>
    cases pl with
    | simple sm =>
      have h := dispatchSimple_cases env s sm hl
      have hd : dispatch env s ⟨Command.CmdType.Simple, Command.Payload.simple sm⟩
          = dispatchSimple env s (Command.Command.ofSimple sm) sm := by
        simp [dispatch, Command.Command.getSimple, Command.Command.ofSimple]
      rw [hd]
      rcases h with ⟨h1, h2, _⟩ | ⟨h1, h2, h3, h4⟩ | ⟨h1, h2, h3, h4, h5⟩
      · left
        exact ⟨by rw [h1]; rfl, h2⟩
      · right; left
        refine ⟨h1, h2, h3, ?_⟩
        rintro (h | ⟨args, h⟩)
        · simp [Command.Command.ofSimple] at h
          exact h4 h
        · simp [Command.Command.ofWithArgs] at h
      · right; right
        exact ⟨h1, h2, h3, h4, Or.inl (by rw [h5]; rfl)⟩
    | none =>
      right; left
      simp [dispatch, Command.Command.getSimple, emit, installedByDispatch,
        Command.Command.ofSimple, Command.Command.ofWithArgs]
    | move m =>
      right; left
      simp [dispatch, Command.Command.getSimple, emit, installedByDispatch,
        Command.Command.ofSimple, Command.Command.ofWithArgs]
    | withArgs w =>
      right; left
      simp [dispatch, Command.Command.getSimple, emit, installedByDispatch,
        Command.Command.ofSimple, Command.Command.ofWithArgs]
  | WithArgs =>
    cases pl with
    | withArgs w =>
      have h := dispatchWithArgs_cases env { s with enableMotion := false } w hl
      have hd : dispatch env s ⟨Command.CmdType.WithArgs, Command.Payload.withArgs w⟩
          = (dispatchWithArgs env { s with enableMotion := false }
              (Command.Command.ofWithArgs w) w, Command.Command.ofWithArgs w) := by
        simp [dispatch, Command.Command.getWithArgs, Command.Command.ofWithArgs]
      rw [hd]
      rcases h with ⟨h1, h2, h3⟩ | ⟨h1, h2, h3, h4⟩
      · right; left
        refine ⟨rfl, h1, h2, ?_⟩
        rintro (h | ⟨args, h⟩)
        · simp [Command.Command.ofSimple] at h
        · simp [Command.Command.ofWithArgs] at h
          rw [h] at h3
          exact h3 rfl
      · right; right
        refine ⟨rfl, h1, h2, h3, Or.inr ⟨w.args, ?_⟩⟩
        rcases w with ⟨cmd, args⟩
        simp at h4
        rw [h4]
        rfl
    | none =>
      right; left
      simp [dispatch, Command.Command.getWithArgs, emit, installedByDispatch,
        Command.Command.ofSimple, Command.Command.ofWithArgs]
    | move m =>
      right; left
      simp [dispatch, Command.Command.getWithArgs, emit, installedByDispatch,
        Command.Command.ofSimple, Command.Command.ofWithArgs]
    | simple sm =>
      right; left
      simp [dispatch, Command.Command.getWithArgs, emit, installedByDispatch,
        Command.Command.ofSimple, Command.Command.ofWithArgs]

/-- C1 as stated fails: an unknown `Simple` command, for which the loader
answers `Invalid`, sent to a robot turning left in frame 3 of its gait, becomes
`lastCmd`; the gait is replaced by the `Invalid` skill and the frame index is
reset. -/
theorem C1_invalid_skill_installed_counterexample :
    unknownSimple ≠ Command.Command.none ∧ unknownSimple ≠ turningState.lastCmd
      ∧ (exampleEnv.load unknownSimple turningState.skill).type = Skill.SkillType.Invalid
      ∧ (turningState.skill.type, turningState.frameIndex) = (Skill.SkillType.Gait, 3)
      ∧ (processNewCommand exampleEnv levelSensor 0 turningState unknownSimple).map
          (fun r => (r.lastCmd, r.skill.type, r.frameIndex))
        = some (unknownSimple, Skill.SkillType.Invalid, 0) := by
  decide!

/-- C1, amended: for a command that is not None and differs from `lastCmd`, and
for which the loader answers `Invalid`, `processNewCommand` returns; unless the
command is a `Pause` that resumes motion (which is turned into None and leaves
`lastCmd`, skill and frame index as they were), the command is installed as
`lastCmd` and the active skill is replaced by the `Invalid` skill of the loader;
the frame index is reset to 0, or kept when the command is a `Rest` or a
`Calibrate`, which are installed by their own case of the dispatch. -/
theorem C1_invalid_skill_installed (env : Env) (sensor : Nat → Attitude) (fuel : Nat)
    (s : ControlState) (c : Command.Command)
    (hc : c ≠ Command.Command.none) (hl : c ≠ s.lastCmd)
    (hinv : ∀ old, (env.load c old).type = Skill.SkillType.Invalid) :
    ∃ r, processNewCommand env sensor fuel s c = some r
      ∧ ((c = Command.Command.ofSimple Command.Simple.Pause ∧ s.enableMotion = false) →
          r.lastCmd = s.lastCmd ∧ r.skill = s.skill ∧ r.frameIndex = s.frameIndex)
      ∧ (¬ (c = Command.Command.ofSimple Command.Simple.Pause ∧ s.enableMotion = false) →
          r.lastCmd = c ∧ r.skill.type = Skill.SkillType.Invalid
            ∧ (installedByDispatch c → r.frameIndex = s.frameIndex)
            ∧ (¬ installedByDispatch c → r.frameIndex = 0)) := by
  by_cases hres : c = Command.Command.ofSimple Command.Simple.Pause ∧ s.enableMotion = false
  · obtain ⟨h1, h2⟩ := hres
    subst h1
    refine ⟨{ s with enableMotion := true }, ?_, fun _ => ⟨rfl, rfl, rfl⟩,
      fun h => absurd ⟨rfl, h2⟩ h⟩
    unfold processNewCommand
    simp [dispatch_resume env s h2]
  · rcases dispatch_cases env s c hl with h | ⟨h1, h2, h3, h4⟩ | ⟨h1, h2, h3, h4, h5⟩
    · exact absurd h hres
    · obtain ⟨r, e1, e2, e3, e4, _⟩ := install_not_behaviour env sensor fuel
        (emit (dispatch env s c).1 [Event.beep [8]]) c (by rw [hinv]; decide)
      refine ⟨r, ?_, fun h => absurd h hres, fun _ => ⟨e2, ?_, fun h => absurd h h4, fun _ => e4⟩⟩
      · unfold processNewCommand
        simp only [h1, ne_eq, hc, not_false_eq_true, if_true, true_and]
        rw [if_pos (by simpa [emit, h2] using hl)]
        exact e1
      · rw [e3]
        exact hinv _
    · refine ⟨emit (dispatch env s c).1 [Event.beep [8]], ?_, fun h => absurd h hres,
        fun _ => ⟨h2, ?_, fun _ => h4, fun h => absurd h5 h⟩⟩
      · unfold processNewCommand
        simp only [h1, ne_eq, hc, not_false_eq_true, if_true, true_and]
        rw [if_neg (by simp [emit, h2])]
      · show (dispatch env s c).1.skill.type = Skill.SkillType.Invalid
        rw [h3]
        exact hinv _

/-- The C1 install on the unknown `Simple` command sent to the turning robot. -/
theorem C1_invalid_skill_installed_witness :
    ∃ r, processNewCommand exampleEnv levelSensor 0 turningState unknownSimple = some r
      ∧ r.lastCmd = unknownSimple ∧ r.skill.type = Skill.SkillType.Invalid
      ∧ r.frameIndex = 0 := by
  obtain ⟨r, h1, _, h3⟩ := C1_invalid_skill_installed exampleEnv levelSensor 0 turningState
    unknownSimple (by decide) (by decide) (fun _ => rfl)
  have h4 := h3 (by decide)
  exact ⟨r, h1, h4.1, h4.2.1, h4.2.2.2 (by
    rintro (h | ⟨args, h⟩)
    · exact absurd h (by decide)
    · simp [unknownSimple, Command.Command.ofSimple, Command.Command.ofWithArgs] at h)⟩

/-- C2 as stated fails: when the infrared source yields "walk forward" and the
serial source yields the gyro toggle in one tick, the tick ends with the toggle
as `lastCmd` and gyro checking off, which is not the state "walk forward" alone
leaves. -/
theorem C2_second_command_processed_counterexample :
    walkForward.type ≠ Command.CmdType.None ∧ gyroToggle.type ≠ Command.CmdType.None
      ∧ (doInputTask exampleEnv levelSensor levelSensor 0 (some walkForward) gyroToggle
          exampleState).map (fun r => (r.lastCmd, r.checkGyro, r.skill.type))
        = some (gyroToggle, false, Skill.SkillType.Invalid)
      ∧ (processNewCommand exampleEnv levelSensor 0 exampleState walkForward).map
          (fun r => (r.lastCmd, r.checkGyro, r.skill.type))
        = some (walkForward, true, Skill.SkillType.Gait) := by
  decide!

/-- C2, amended: when both sources yield a command that is not None in one
input tick, `doInputTask` processes both, the infrared one first: the state it
leaves is the one `processNewCommand` leaves for the serial command when started
from the state `processNewCommand` leaves for the infrared command.  A source
that yields None, or an infrared receiver without a signal, contributes
nothing. -/
theorem C2_input_processes_both (env : Env) (sensorIr sensorSerial : Nat → Attitude)
    (fuel : Nat) (c1 c2 : Command.Command) (s : ControlState) :
    (c1.type ≠ Command.CmdType.None → c2.type ≠ Command.CmdType.None →
        doInputTask env sensorIr sensorSerial fuel (some c1) c2 s =
          (processNewCommand env sensorIr fuel s c1).bind
            (fun s1 => processNewCommand env sensorSerial fuel s1 c2))
      ∧ (c1.type ≠ Command.CmdType.None → c2.type = Command.CmdType.None →
        doInputTask env sensorIr sensorSerial fuel (some c1) c2 s =
          processNewCommand env sensorIr fuel s c1)
      ∧ (c1.type = Command.CmdType.None → c2.type ≠ Command.CmdType.None →
        doInputTask env sensorIr sensorSerial fuel (some c1) c2 s =
          processNewCommand env sensorSerial fuel s c2)
      ∧ (c2.type ≠ Command.CmdType.None →
        doInputTask env sensorIr sensorSerial fuel none c2 s =
          processNewCommand env sensorSerial fuel s c2) := by
  refine ⟨?_, ?_, ?_, ?_⟩
  · intro h1 h2
    simp [doInputTask, h1, h2]
  · intro h1 h2
    simp [doInputTask, h1, h2]
  · intro h1 h2
    simp [doInputTask, h1, h2]
  · intro h2
    simp [doInputTask, h2]

/-- The C2 sequence on "walk forward" from the infrared source and the gyro
toggle from the serial source. -/
theorem C2_input_processes_both_witness :
    doInputTask exampleEnv levelSensor levelSensor 0 (some walkForward) gyroToggle exampleState
      = (processNewCommand exampleEnv levelSensor 0 exampleState walkForward).bind
          (fun s1 => processNewCommand exampleEnv levelSensor 0 s1 gyroToggle) :=
  (C2_input_processes_both exampleEnv levelSensor levelSensor 0 walkForward gyroToggle
    exampleState).1 (by decide) (by decide)

/-- The install block on a gait: it returns, with the frame index at 0 and the
first motion joint at `DOF - WALKING_DOF` as an 8 bit value. -/
theorem install_gait (env : Env) (sensor : Nat → Attitude) (fuel : Nat)
    (s : ControlState) (c : Command.Command)
    (h : (env.load c s.skill).type = Skill.SkillType.Gait) :
    ∃ r, install env sensor fuel s c = some r ∧ r.skill = env.load c s.skill
      ∧ r.frameIndex = 0
      ∧ r.firstMotionJoint = toUInt8 ((env.DOF : Int) - (env.WALKING_DOF : Int)) := by
  by_cases hr : c = Command.Command.ofSimple Command.Simple.Rest
  · subst hr
    simp [install, emit, h]
  · simp [install, emit, h, hr]

/-! ## The motion duty: lemmas and claims -/

/-- The first of the posture targets. -/
theorem postureTargets_succ (skill : Skill.Skill) (first : Int) (n : Nat) :
    postureTargets skill first (n + 1) =
      Event.calibratedPWM first ((readAt skill.spec first : Int) : ℚ)
        :: postureTargets skill (first + 1) n := by
  unfold postureTargets
  rw [List.range_succ_eq_map, List.map_cons, List.map_map]
  simp only [Nat.cast_zero, add_zero, List.cons.injEq, true_and]
  apply List.map_congr_left
  intro j _
  have : first + ((j : Int) + 1) = first + 1 + j := by ring
  simp [this]

/-- The posture loop from a joint `i ≥ 2` on, with multiplier 1 and gyro checking off: it ends and emits the base angles of the joints `i .. DOF - 1`. -/
theorem postureLoop_tail (env : Env) (skill : Skill.Skill) (hd : skill.doubleAngles = false) :
    ∀ (n fuel : Nat) (i : Int) (s : ControlState), 2 ≤ i → i + n = env.DOF → n < fuel →
      s.checkGyro = false →
      postureLoop env skill fuel i s = some (emit s (postureTargets skill i n)) := by
  intro n
  induction n with
  | zero =>
    intro fuel i s _ hi hf _
    obtain ⟨f, rfl⟩ : ∃ f, fuel = f + 1 := ⟨fuel - 1, by omega⟩
    have : ¬ i < env.DOF := by simp at hi; omega
    simp [postureLoop, this, postureTargets, emit_nil]
  | succ n ih =>
    intro fuel i s h2 hi hf hg
    obtain ⟨f, rfl⟩ : ∃ f, fuel = f + 1 := ⟨fuel - 1, by omega⟩
    have hlt : i < env.DOF := by push_cast at hi; omega
    have h1 : i ≠ 1 := by omega
    have h0 : i ≠ 0 := by omega
    rw [postureLoop]
    simp only [hlt, if_true, h1, if_false, h0, hd, hg]
    rw [ih f (i + 1) _ (by omega) (by push_cast at hi ⊢; omega) (by omega) (by simp [emit, hg])]
    rw [emit_emit, postureTargets_succ]
    cases s
    simp_all [emit]

/-- The posture tick with multiplier 1 and gyro checking off. -/
theorem doMotionPosture_targets (env : Env) (s : ControlState)
    (hW : 0 < env.WALKING_DOF) (hD : env.WALKING_DOF < env.DOF)
    (ht : s.skill.type = Skill.SkillType.Posture) (hd : s.skill.doubleAngles = false)
    (hg : s.checkGyro = false) :
    doMotionPosture env s =
      some (emit s (Event.calibratedPWM 0 s.rollDeviation
        :: postureTargets s.skill ((env.DOF - env.WALKING_DOF : Nat) : Int) env.WALKING_DOF)) := by
  obtain ⟨w, hw⟩ : ∃ w, env.WALKING_DOF = w + 1 := ⟨env.WALKING_DOF - 1, by omega⟩
  have hcast : ((env.DOF - env.WALKING_DOF : Nat) : Int) = (env.DOF : Int) - env.WALKING_DOF := by
    omega
  have h0 : (0 : Int) < env.DOF := by omega
  have h1 : (1 : Int) < env.DOF := by omega
  have hne : (env.DOF : Int) - env.WALKING_DOF ≠ 0 := by omega
  unfold doMotionPosture
  rw [hcast, if_pos ht, postureLoop]
  simp only [h0, if_true, zero_ne_one, if_false]
  rw [postureLoop]
  simp only [emit, zero_add, h1, if_true, hne, if_false, hd, hg]
  rw [postureLoop_tail env s.skill hd w (env.DOF) _ _ (by omega) (by omega) (by omega) rfl]
  rw [hw, postureTargets_succ]
  simp [emit]

/-- The first of the gait targets. -/
theorem gaitTargets_succ (env : Env) (skill : Skill.Skill) (fmj fi : Nat) (first : Int)
    (n : Nat) :
    gaitTargets env skill fmj fi first (n + 1) =
      Event.calibratedPWM first
          ((readAt skill.spec ((fi : Int) * (env.WALKING_DOF : Int) + (first - (fmj : Int)))
            * (if skill.doubleAngles then 2 else 1) : Int) : ℚ)
        :: gaitTargets env skill fmj fi (first + 1) n := by
  unfold gaitTargets
  rw [List.range_succ_eq_map, List.map_cons, List.map_map]
  simp only [Nat.cast_zero, add_zero, List.cons.injEq, true_and]
  apply List.map_congr_left
  intro j _
  have : first + ((j : Int) + 1) = first + 1 + j := by ring
  simp [this]

/-- The first of a nonempty list of gait targets. -/
theorem gaitTargets_pos (env : Env) (skill : Skill.Skill) (fmj fi : Nat) (first : Int)
    (n : Nat) (h : 0 < n) :
    gaitTargets env skill fmj fi first n =
      Event.calibratedPWM first
          ((readAt skill.spec ((fi : Int) * (env.WALKING_DOF : Int) + (first - (fmj : Int)))
            * (if skill.doubleAngles then 2 else 1) : Int) : ℚ)
        :: gaitTargets env skill fmj fi (first + 1) (n - 1) := by
  obtain ⟨m, rfl⟩ : ∃ m, n = m + 1 := ⟨n - 1, by omega⟩
  exact gaitTargets_succ env skill fmj fi first m

/-- The gait loop from a joint `i ≥ 2` on: it ends and emits the frame angles of the joints `i .. DOF - 1`. -/
theorem moveLoop_tail (env : Env) (skill : Skill.Skill) (fmj fi : Nat) :
    ∀ (n fuel : Nat) (i : Int) (s : ControlState), 2 ≤ i → i + n = env.DOF → n < fuel →
      moveLoop env skill fmj fi fuel i s = some (emit s (gaitTargets env skill fmj fi i n)) := by
  intro n
  induction n with
  | zero =>
    intro fuel i s _ hi hf
    obtain ⟨f, rfl⟩ : ∃ f, fuel = f + 1 := ⟨fuel - 1, by omega⟩
    have : ¬ i < env.DOF := by simp at hi; omega
    simp [moveLoop, this, gaitTargets, emit_nil]
  | succ n ih =>
    intro fuel i s h2 hi hf
    obtain ⟨f, rfl⟩ : ∃ f, fuel = f + 1 := ⟨fuel - 1, by omega⟩
    have hlt : i < env.DOF := by push_cast at hi; omega
    have h1 : i ≠ 1 := by omega
    have h0 : i ≠ 0 := by omega
    rw [moveLoop]
    simp only [hlt, if_true, h1, if_false, h0]
    rw [ih f (i + 1) _ (by omega) (by push_cast at hi ⊢; omega) (by omega)]
    rw [emit_emit, gaitTargets_succ]
    rfl

/-- The gait tick: the look target, the leg targets of the frame played, and the frame index advanced. -/
theorem doMotionMove_targets (env : Env) (s : ControlState)
    (hW : 0 < env.WALKING_DOF) (hf : 1 ≤ s.firstMotionJoint)
    (hsum : s.firstMotionJoint + env.WALKING_DOF = env.DOF)
    (ht : s.skill.type = Skill.SkillType.Gait) :
    doMotionMove env s =
      some { emit s (lookTarget env s.skill (gaitFrame s) s.offsetLR
                ++ gaitTargets env s.skill s.firstMotionJoint (gaitFrame s)
                    s.firstMotionJoint env.WALKING_DOF) with
             frameIndex := (gaitFrame s + 1) % 256 } := by
  have h0 : (0 : Int) < env.DOF := by omega
  have h1 : (1 : Int) < env.DOF := by omega
  unfold doMotionMove
  rw [if_pos ht]
  dsimp only
  rw [moveLoop]
  simp only [h0, if_true]
  by_cases hfr : s.skill.frames > 1
  · simp only [hfr, if_true]
    rw [moveLoop]
    simp only [emit, zero_add, h1, if_true, one_ne_zero, if_false]
    rw [moveLoop_tail env s.skill _ _ (env.WALKING_DOF - 1) (env.DOF) _ _ (by omega) (by omega)
      (by omega)]
    rw [gaitTargets_pos env s.skill _ _ _ _ hW]
    simp [emit, lookTarget, hfr]
  · simp only [hfr, if_false]
    rw [moveLoop]
    simp only [emit, zero_add, h1, if_true, one_ne_zero, if_false]
    rw [moveLoop_tail env s.skill _ _ (env.WALKING_DOF - 1) (env.DOF) _ _ (by omega) (by omega)
      (by omega)]
    rw [gaitTargets_pos env s.skill _ _ _ _ hW]
    simp [emit, lookTarget, hfr]

/-- The successor modulo `n`, as the wrap of line 588 computes it. -/
theorem succ_mod_step (k n : Nat) (hn : 1 ≤ n) :
    (k + 1) % n = if k % n + 1 ≥ n then 0 else k % n + 1 := by
  have hlt : k % n < n := Nat.mod_lt _ (by omega)
  rw [Nat.add_mod]
  by_cases h1 : n = 1
  · subst h1; simp [Nat.mod_one]
  · have : 1 % n = 1 := Nat.mod_eq_of_lt (by omega)
    rw [this]
    by_cases h : k % n + 1 ≥ n
    · have : k % n + 1 = n := by omega
      rw [this, Nat.mod_self, if_pos (le_refl _)]
    · rw [if_neg h, Nat.mod_eq_of_lt (by omega)]

/-- The motion duty on an enabled gait is one gait step. -/
theorem doMotionTask_gait (env : Env) (s : ControlState)
    (hW : 0 < env.WALKING_DOF) (hf : 1 ≤ s.firstMotionJoint)
    (hsum : s.firstMotionJoint + env.WALKING_DOF = env.DOF)
    (hm : s.enableMotion = true) (ht : s.skill.type = Skill.SkillType.Gait) :
    doMotionTask env s = some (gaitStep env s) := by
  unfold doMotionTask
  rw [if_pos hm]
  exact doMotionMove_targets env s hW hf hsum ht

/-- Every motion tick of an enabled gait returns, keeps skill, flags, first joint and offset, and plays frame `k mod n` on tick `k`. -/
theorem motionRun_gait (env : Env) (s : ControlState)
    (hW : 0 < env.WALKING_DOF) (hf : 1 ≤ s.firstMotionJoint)
    (hsum : s.firstMotionJoint + env.WALKING_DOF = env.DOF)
    (hm : s.enableMotion = true) (ht : s.skill.type = Skill.SkillType.Gait)
    (hn1 : 1 ≤ s.skill.frames) (hn2 : s.skill.frames ≤ 255) (h0 : s.frameIndex = 0) :
    ∀ k, ∃ sk, motionRun env s k = some sk ∧ sk.skill = s.skill ∧ sk.enableMotion = true
      ∧ sk.firstMotionJoint = s.firstMotionJoint ∧ sk.offsetLR = s.offsetLR
      ∧ gaitFrame sk = k % s.skill.frames := by
  intro k
  induction k with
  | zero =>
    refine ⟨s, rfl, rfl, hm, rfl, rfl, ?_⟩
    unfold gaitFrame
    rw [h0]
    simp
  | succ k ih =>
    obtain ⟨sk, hrun, hsk, hen, hfm, hoff, hgf⟩ := ih
    have hstep := doMotionTask_gait env sk hW (by rw [hfm]; exact hf)
      (by rw [hfm]; exact hsum) hen (by rw [hsk]; exact ht)
    refine ⟨gaitStep env sk, ?_, ?_, ?_, ?_, ?_, ?_⟩
    · rw [motionRun, hrun, Option.some_bind, hstep]
    · simp [gaitStep, emit, hsk]
    · simp [gaitStep, emit, hen]
    · simp [gaitStep, emit, hfm]
    · simp [gaitStep, emit, hoff]
    · have hlt : k % s.skill.frames < s.skill.frames := Nat.mod_lt _ (by omega)
      rw [succ_mod_step k _ hn1]
      unfold gaitFrame
      simp only [gaitStep, emit, hsk, hgf]
      rw [Nat.mod_eq_of_lt (by omega)]

/-- Every joint of the range has its base angle among the posture targets. -/
theorem mem_postureTargets (skill : Skill.Skill) (first n i : Nat) (h1 : first ≤ i)
    (h2 : i < first + n) :
    Event.calibratedPWM (i : Int) ((readAt skill.spec (i : Int) : Int) : ℚ)
      ∈ postureTargets skill (first : Int) n := by
  unfold postureTargets
  rw [List.mem_map]
  refine ⟨i - first, List.mem_range.2 (by omega), ?_⟩
  have : (first : Int) + ((i - first : Nat) : Int) = i := by omega
  rw [this]

/-- A joint below the range has no posture target. -/
theorem not_mem_postureTargets (skill : Skill.Skill) (first n : Nat) (i : Int) (a : ℚ)
    (h : i < first) : Event.calibratedPWM i a ∉ postureTargets skill (first : Int) n := by
  unfold postureTargets
  rw [List.mem_map]
  rintro ⟨j, _, hj⟩
  injection hj with h1 _
  omega

/-- Every joint of the range has its frame angle among the gait targets. -/
theorem mem_gaitTargets (env : Env) (skill : Skill.Skill) (fi first n i : Nat) (h1 : first ≤ i)
    (h2 : i < first + n) :
    Event.calibratedPWM (i : Int)
        ((readAt skill.spec ((fi : Int) * (env.WALKING_DOF : Int) + ((i : Int) - (first : Int)))
          * (if skill.doubleAngles then 2 else 1) : Int) : ℚ)
      ∈ gaitTargets env skill first fi (first : Int) n := by
  unfold gaitTargets
  rw [List.mem_map]
  refine ⟨i - first, List.mem_range.2 (by omega), ?_⟩
  have : (first : Int) + ((i - first : Nat) : Int) = i := by omega
  rw [this]

/-- A joint below the range has no gait target. -/
theorem not_mem_gaitTargets (env : Env) (skill : Skill.Skill) (fi first n : Nat) (i : Int)
    (a : ℚ) (h : i < first) :
    Event.calibratedPWM i a ∉ gaitTargets env skill first fi (first : Int) n := by
  unfold gaitTargets
  rw [List.mem_map]
  rintro ⟨j, _, hj⟩
  injection hj with h1 _
  omega

/-- C8: a gait of `n` frames, `1 ≤ n ≤ 255`, with motion enabled and the frame
index at 0 as the install leaves it: every motion tick `k` returns, the frame it
plays is `k mod n`, and the targets it emits are those of frame `k mod n`.
(`install_gait` shows that the install block leaves the frame index at 0.) -/
theorem C8_gait_frame_cycle (env : Env) (s : ControlState)
    (hW : 0 < env.WALKING_DOF) (hD : env.WALKING_DOF < env.DOF)
    (hf : s.firstMotionJoint = env.DOF - env.WALKING_DOF)
    (hm : s.enableMotion = true) (ht : s.skill.type = Skill.SkillType.Gait)
    (hn1 : 1 ≤ s.skill.frames) (hn2 : s.skill.frames ≤ 255) (h0 : s.frameIndex = 0)
    (k : Nat) :
    ∃ sk, motionRun env s k = some sk
      ∧ gaitFrame sk = k % s.skill.frames
      ∧ ∃ sk1, doMotionTask env sk = some sk1
        ∧ sk1.frameIndex = k % s.skill.frames + 1
        ∧ sk1.out = sk.out ++ (lookTarget env s.skill (k % s.skill.frames) s.offsetLR
            ++ gaitTargets env s.skill s.firstMotionJoint (k % s.skill.frames)
                s.firstMotionJoint env.WALKING_DOF) := by
  have hf1 : 1 ≤ s.firstMotionJoint := by omega
  have hsum : s.firstMotionJoint + env.WALKING_DOF = env.DOF := by omega
  obtain ⟨sk, hrun, hsk, hen, hfm, hoff, hgf⟩ :=
    motionRun_gait env s hW hf1 hsum hm ht hn1 hn2 h0 k
  have hlt : k % s.skill.frames < s.skill.frames := Nat.mod_lt _ (by omega)
  refine ⟨sk, hrun, hgf, gaitStep env sk, ?_, ?_, ?_⟩
  · exact doMotionTask_gait env sk hW (by rw [hfm]; exact hf1) (by rw [hfm]; exact hsum) hen
      (by rw [hsk]; exact ht)
  · simp only [gaitStep, hgf]
    exact Nat.mod_eq_of_lt (by omega)
  · simp only [gaitStep, emit, hsk, hgf, hfm, hoff]

/-- The C8 cycle on the four-frame example gait: tick 5 plays frame 1, and
ticks 0..7 play the frames 0, 1, 2, 3, 0, 1, 2, 3. -/
theorem C8_gait_frame_cycle_witness :
    (∃ sk, motionRun exampleEnv walkingState 5 = some sk ∧ gaitFrame sk = 1)
      ∧ (List.range 8).map (fun k => (motionRun exampleEnv walkingState k).map gaitFrame)
          = [some 0, some 1, some 2, some 3, some 0, some 1, some 2, some 3] := by
  obtain ⟨sk, h1, h2, _⟩ := C8_gait_frame_cycle exampleEnv walkingState (by decide) (by decide)
    (by decide) (by decide) (by decide) (by decide) (by decide) (by decide) 5
  exact ⟨⟨sk, h1, h2⟩, by decide!⟩

/-- C9 as stated fails on a robot with `DOF = 16` and `WALKING_DOF = 8`: with the
posture `[10, 0, 0, ...]`, multiplier 1 and gyro checking off, the posture tick
writes the joints 0 and 8..15 only; joint 1 does not receive its base angle. -/
theorem C9_posture_joint_one_counterexample :
    postureState.enableMotion = false
      ∧ postureState.skill.type = Skill.SkillType.Posture
      ∧ postureState.skill.doubleAngles = false
      ∧ postureState.checkGyro = false
      ∧ (doMotionTask exampleEnv postureState).map (fun s => pwmJoints s.out)
          = some [0, 8, 9, 10, 11, 12, 13, 14, 15]
      ∧ (doMotionTask exampleEnv postureState).map
          (fun s => decide (Event.calibratedPWM 1
            ((readAt postureState.skill.spec 1 : Int) : ℚ) ∈ s.out)) = some false := by
  decide!

/-- C9, amended: in posture mode with multiplier 1 and gyro checking off, the
posture tick returns and emits, in order, the roll deviation for the look joint
0 and then, for every joint `i` from `DOF - WALKING_DOF` to `DOF - 1`, the target
`calibratedPWM(i, base angle of i)` with no compensation added; the joints
`1 .. DOF - WALKING_DOF - 1` receive no target.  Nothing else of the state
changes. -/
theorem C9_posture_targets (env : Env) (s : ControlState)
    (hW : 0 < env.WALKING_DOF) (hD : env.WALKING_DOF < env.DOF)
    (hm : s.enableMotion = false) (ht : s.skill.type = Skill.SkillType.Posture)
    (hd : s.skill.doubleAngles = false) (hg : s.checkGyro = false) :
    doMotionTask env s =
        some (emit s (Event.calibratedPWM 0 s.rollDeviation
          :: postureTargets s.skill ((env.DOF - env.WALKING_DOF : Nat) : Int) env.WALKING_DOF))
      ∧ (∀ i : Nat, env.DOF - env.WALKING_DOF ≤ i → i < env.DOF →
          Event.calibratedPWM (i : Int) ((readAt s.skill.spec (i : Int) : Int) : ℚ)
            ∈ postureTargets s.skill ((env.DOF - env.WALKING_DOF : Nat) : Int) env.WALKING_DOF)
      ∧ (∀ (i : Nat) (a : ℚ), 1 ≤ i → i < env.DOF - env.WALKING_DOF →
          Event.calibratedPWM (i : Int) a
            ∉ Event.calibratedPWM 0 s.rollDeviation
              :: postureTargets s.skill ((env.DOF - env.WALKING_DOF : Nat) : Int)
                  env.WALKING_DOF) := by
  refine ⟨?_, ?_, ?_⟩
  · unfold doMotionTask
    rw [hm]
    exact doMotionPosture_targets env s hW hD ht hd hg
  · intro i h1 h2
    exact mem_postureTargets s.skill _ _ i h1 (by omega)
  · intro i a h1 h2 hmem
    rcases List.mem_cons.1 hmem with h | h
    · injection h with h3 _
      omega
    · exact not_mem_postureTargets s.skill _ _ _ a (by omega) h

/-- The C9 targets on the example posture: joint 8 receives its base angle and
the record of the tick starts with the look joint. -/
theorem C9_posture_targets_witness :
    (doMotionTask exampleEnv postureState).map (fun s => s.out.head?)
        = some (some (Event.calibratedPWM 0 0))
      ∧ Event.calibratedPWM 8 ((readAt postureState.skill.spec 8 : Int) : ℚ)
          ∈ postureTargets postureState.skill ((16 - 8 : Nat) : Int) 8 := by
  have h := C9_posture_targets exampleEnv postureState (by decide) (by decide) (by decide)
    (by decide) (by decide) (by decide)
  refine ⟨?_, h.2.1 8 (by decide) (by decide)⟩
  rw [h.1]
  rfl

/-- C10 as stated fails on a robot with `DOF = 16` and `WALKING_DOF = 8`: the
gait tick writes the joints 0 and 8..15 only, so joint 1 receives no target; and
on a gait without frames the index read is not below `frames * WALKING_DOF`. -/
theorem C10_gait_joint_one_counterexample :
    walkingState.enableMotion = true
      ∧ walkingState.skill.type = Skill.SkillType.Gait
      ∧ walkingState.firstMotionJoint = exampleEnv.DOF - exampleEnv.WALKING_DOF
      ∧ (doMotionTask exampleEnv walkingState).map (fun s => pwmJoints s.out)
          = some [0, 8, 9, 10, 11, 12, 13, 14, 15]
      ∧ ¬ ((gaitFrame { walkingState with skill := { exampleGait with frames := 0 } } : Int)
            * exampleEnv.WALKING_DOF + (8 - walkingState.firstMotionJoint)
          < (0 : Nat) * exampleEnv.WALKING_DOF) := by
  decide!

/-- C10, amended: in gait mode with `firstMotionJoint = DOF - WALKING_DOF` and a
skill of at least one frame, the motion tick returns and emits, after the look
target, for every joint `i` from `firstMotionJoint` to `DOF - 1` the target
`calibratedPWM(i, spec[frame * WALKING_DOF + (i - firstMotionJoint)] * m)`, where
`frame` is the frame index after its wrap and `m` is 2 when the skill doubles its
angles and 1 otherwise; the index read is below `frames * WALKING_DOF`; the
joints `1 .. firstMotionJoint - 1` receive no target.  The install block sets
`firstMotionJoint` to `DOF - WALKING_DOF` for a gait when `DOF` fits 8 bits. -/
theorem C10_gait_targets (env : Env) (s : ControlState)
    (hW : 0 < env.WALKING_DOF) (hD : env.WALKING_DOF < env.DOF)
    (hf : s.firstMotionJoint = env.DOF - env.WALKING_DOF)
    (hm : s.enableMotion = true) (ht : s.skill.type = Skill.SkillType.Gait)
    (hn : 1 ≤ s.skill.frames) :
    doMotionTask env s =
        some { emit s (lookTarget env s.skill (gaitFrame s) s.offsetLR
                  ++ gaitTargets env s.skill s.firstMotionJoint (gaitFrame s)
                      s.firstMotionJoint env.WALKING_DOF) with
               frameIndex := (gaitFrame s + 1) % 256 }
      ∧ (∀ i : Nat, s.firstMotionJoint ≤ i → i < env.DOF →
          Event.calibratedPWM (i : Int)
              ((readAt s.skill.spec ((gaitFrame s : Int) * (env.WALKING_DOF : Int)
                  + ((i : Int) - (s.firstMotionJoint : Int)))
                * (if s.skill.doubleAngles then 2 else 1) : Int) : ℚ)
            ∈ gaitTargets env s.skill s.firstMotionJoint (gaitFrame s)
                s.firstMotionJoint env.WALKING_DOF
          ∧ 0 ≤ (gaitFrame s : Int) * (env.WALKING_DOF : Int)
                  + ((i : Int) - (s.firstMotionJoint : Int))
          ∧ (gaitFrame s : Int) * (env.WALKING_DOF : Int)
                + ((i : Int) - (s.firstMotionJoint : Int))
              < (s.skill.frames : Int) * (env.WALKING_DOF : Int))
      ∧ (∀ (i : Nat) (a : ℚ), 1 ≤ i → i < s.firstMotionJoint →
          Event.calibratedPWM (i : Int) a
            ∉ lookTarget env s.skill (gaitFrame s) s.offsetLR
              ++ gaitTargets env s.skill s.firstMotionJoint (gaitFrame s)
                  s.firstMotionJoint env.WALKING_DOF)
      ∧ (env.DOF < 256 → ∀ sensor fuel (s0 : ControlState) (c : Command.Command),
          (env.load c s0.skill).type = Skill.SkillType.Gait →
          ∃ r, install env sensor fuel s0 c = some r
            ∧ r.firstMotionJoint = env.DOF - env.WALKING_DOF) := by
  have hf1 : 1 ≤ s.firstMotionJoint := by omega
  have hsum : s.firstMotionJoint + env.WALKING_DOF = env.DOF := by omega
  refine ⟨doMotionTask_gait env s hW hf1 hsum hm ht, ?_, ?_, ?_⟩
  rotate_left 2
  · intro h256 sensor fuel s0 c hg
    obtain ⟨r, h1, _, _, h4⟩ := install_gait env sensor fuel s0 c hg
    refine ⟨r, h1, ?_⟩
    rw [h4]
    unfold toUInt8
    omega
  · intro i h1 h2
    refine ⟨mem_gaitTargets env s.skill _ _ _ i h1 (by omega), ?_, ?_⟩
    · have : (0 : Int) ≤ (gaitFrame s : Int) * (env.WALKING_DOF : Int) := by positivity
      omega
    · have hg : gaitFrame s + 1 ≤ s.skill.frames := by
        unfold gaitFrame
        split_ifs <;> omega
      have hmul := Nat.mul_le_mul_right env.WALKING_DOF hg
      have hz : ((gaitFrame s + 1) * env.WALKING_DOF : Int)
          ≤ (s.skill.frames : Int) * (env.WALKING_DOF : Int) := by exact_mod_cast hmul
      have he : ((gaitFrame s + 1) * env.WALKING_DOF : Int)
          = (gaitFrame s : Int) * (env.WALKING_DOF : Int) + env.WALKING_DOF := by ring
      omega
  · intro i a h1 h2 hmem
    rcases List.mem_append.1 hmem with h | h
    · unfold lookTarget at h
      split_ifs at h
      · rw [List.mem_singleton] at h
        injection h with h3 _
        omega
      · exact absurd h (List.not_mem_nil _)
    · exact not_mem_gaitTargets env s.skill _ _ _ _ a (by omega) h

/-- The C10 targets on the example gait at its first frame: joint 9 receives
`spec[0 * 8 + (9 - 8)]`, and the tick moves the frame index to 1. -/
theorem C10_gait_targets_witness :
    (doMotionTask exampleEnv walkingState).map (fun s => s.frameIndex) = some 1
      ∧ Event.calibratedPWM 9 1 ∈ gaitTargets exampleEnv exampleGait 8 0 8 8 := by
  have h := C10_gait_targets exampleEnv walkingState (by decide) (by decide) (by decide)
    (by decide) (by decide) (by decide)
  refine ⟨?_, ?_⟩
  · rw [h.1]
    rfl
  · have h9 := (h.2.1 9 (by decide) (by decide)).1
    exact h9

/-! ## Behaviour playback and the override: lemmas and claims -/

/-- The calls of two lists of frames played one after the other. -/
theorem framesEvents_append (skill : Skill.Skill) (a b : List Nat) :
    framesEvents skill (a ++ b) = framesEvents skill a ++ framesEvents skill b := by
  induction a with
  | nil => rfl
  | cons x xs ih => simp [framesEvents, ih]

/-- A frame without trigger axis is its transform and its delay; no attitude poll is made. -/
theorem playFrame_no_trigger (env : Env) (sensor : Nat → Attitude) (maxPolls : Nat)
    (skill : Skill.Skill) (c k : Nat) (s : ControlState)
    (h : readAt skill.spec (18 + (c : Int) * 20) = 0) :
    playFrame env sensor maxPolls skill c k s = some (emit s (frameEvents skill c), k) := by
  unfold playFrame
  simp only [h, ne_eq, not_true_eq_false, if_false, emit_emit]
  rfl

/-- A stretch of `d` frames from frame `c` on which the loop does not jump back:
the frames are played in order and the loop goes on at frame `c + d`. -/
theorem behaviorLoop_run (env : Env) (sensor : Nat → Attitude) (maxPolls : Nat)
    (skill : Skill.Skill) (rep : Int) (k : Nat)
    (hn : skill.frames ≤ 255)
    (ht : ∀ c, c < skill.frames → readAt skill.spec (18 + (c : Int) * 20) = 0) :
    ∀ (d c fuel : Nat) (s : ControlState), c + d ≤ skill.frames → d ≤ fuel →
      (rep ≤ 0 ∨ ∀ i : Nat, c ≤ i → i < c + d → (i : Int) ≠ skill.loopSpec.finalRow) →
      behaviorLoop env sensor maxPolls skill fuel c rep k s =
        behaviorLoop env sensor maxPolls skill (fuel - d) (c + d) rep k
          (emit s (framesEvents skill (List.range' c d))) := by
  intro d
  induction d with
  | zero =>
    intro c fuel s _ _ _
    simp [framesEvents, emit_nil]
  | succ d ih =>
    intro c fuel s hc hf hj
    obtain ⟨f, rfl⟩ : ∃ f, fuel = f + 1 := ⟨fuel - 1, by omega⟩
    have hlt : c < skill.frames := by omega
    have hnj : ¬ ((c : Int) = skill.loopSpec.finalRow ∧ rep > 0) := by
      rintro ⟨h1, h2⟩
      rcases hj with h | h
      · omega
      · exact h c (le_refl _) (by omega) h1
    rw [behaviorLoop]
    simp only [hlt, if_true, playFrame_no_trigger env sensor maxPolls skill c k s (ht c hlt),
      hnj, if_false]
    have hc1 : (c + 1) % 256 = c + 1 := Nat.mod_eq_of_lt (by omega)
    rw [hc1, ih (c + 1) f _ (by omega) (by omega)
      (by
        rcases hj with h | h
        · exact Or.inl h
        · exact Or.inr (fun i h1 h2 => h i (by omega) (by omega)))]
    rw [emit_emit, List.range'_succ, framesEvents]
    have e1 : f + 1 - (d + 1) = f - d := by omega
    have e2 : c + 1 + d = c + (d + 1) := by omega
    rw [e1, e2]

/-- The loop leaves at the frame count. -/
theorem behaviorLoop_end (env : Env) (sensor : Nat → Attitude) (maxPolls : Nat)
    (skill : Skill.Skill) (rep : Int) (k fuel : Nat) (s : ControlState) (hf : 0 < fuel) :
    behaviorLoop env sensor maxPolls skill fuel skill.frames rep k s = some s := by
  obtain ⟨f, rfl⟩ : ∃ f, fuel = f + 1 := ⟨fuel - 1, by omega⟩
  rw [behaviorLoop]
  simp

/-- The jump of lines 193-196: at the final row with repeats left, the frame is
played and the loop goes on at the first row with one repeat less. -/
theorem behaviorLoop_jump (env : Env) (sensor : Nat → Attitude) (maxPolls : Nat)
    (skill : Skill.Skill) (f l : Nat) (j : Nat) (k fuel : Nat) (s : ControlState)
    (ht : ∀ c, c < skill.frames → readAt skill.spec (18 + (c : Int) * 20) = 0)
    (hf : skill.loopSpec.firstRow = (f : Int)) (hl : skill.loopSpec.finalRow = (l : Int))
    (hfl : f ≤ l) (hln : l < skill.frames) (hn : skill.frames ≤ 255) (hj : j ≤ 126) :
    behaviorLoop env sensor maxPolls skill (fuel + 1) l ((j : Int) + 1) k s =
      behaviorLoop env sensor maxPolls skill fuel f (j : Int) k
        (emit s (frameEvents skill l)) := by
  rw [behaviorLoop]
  have hcond : ((l : Int) = skill.loopSpec.finalRow ∧ (j : Int) + 1 > 0) := ⟨hl.symm, by omega⟩
  simp only [hln, if_true, playFrame_no_trigger env sensor maxPolls skill l k s (ht l hln),
    hcond, and_self]
  have e1 : (toUInt8 (skill.loopSpec.firstRow - 1) + 1) % 256 = f := by
    rw [hf]; unfold toUInt8; omega
  have e2 : toInt8 ((j : Int) + 1 - 1) = (j : Int) := by
    unfold toInt8; omega
  rw [e1, e2]

/-- The number of frames in `j` passes over the span. -/
theorem loopSpans_length (f l : Nat) (j : Nat) : (loopSpans f l j).length = j * (l - f + 1) := by
  induction j with
  | zero => simp [loopSpans]
  | succ j ih =>
    simp only [loopSpans, List.length_append, List.length_range', ih]
    ring

/-- The number of frames the order of play holds. -/
theorem playOrder_length (n f l r : Nat) (hl : l < n) :
    (playOrder n f l r).length = n + (r - 1) * (l - f + 1) := by
  unfold playOrder
  simp only [List.length_append, List.length_range', loopSpans_length]
  omega

/-- Each frame played contributes exactly one transform, at its own offset. -/
theorem frameStarts_framesEvents (skill : Skill.Skill) (order : List Nat) :
    frameStarts (framesEvents skill order) = order.map (fun c => (c : Int) * 20) := by
  induction order with
  | nil => rfl
  | cons c cs ih =>
    unfold frameStarts at ih ⊢
    simp only [framesEvents, frameEvents, List.filterMap_append, ih]
    simp [List.filterMap_cons]

/-- The frame loop from a frame `c` at or before the final row, with `j`
repeats left: the frames `c .. l`, then the span `f .. l` another `j` times,
then the frames after `l`; the loop ends within one iteration per frame played
and one more. -/
theorem behaviorLoop_order (env : Env) (sensor : Nat → Attitude) (maxPolls : Nat)
    (skill : Skill.Skill) (f l : Nat) (k : Nat)
    (hn : skill.frames ≤ 255)
    (ht : ∀ c, c < skill.frames → readAt skill.spec (18 + (c : Int) * 20) = 0)
    (hf : skill.loopSpec.firstRow = (f : Int)) (hl : skill.loopSpec.finalRow = (l : Int))
    (hfl : f ≤ l) (hln : l < skill.frames) :
    ∀ (j c fuel : Nat) (s : ControlState), j ≤ 127 → c ≤ l →
      (l - c + 1) + j * (l - f + 1) + (skill.frames - (l + 1)) < fuel →
      behaviorLoop env sensor maxPolls skill fuel c (j : Int) k s =
        some (emit s (framesEvents skill
          (List.range' c (l - c + 1)
            ++ (loopSpans f l j ++ List.range' (l + 1) (skill.frames - (l + 1)))))) := by
  intro j
  induction j with
  | zero =>
    intro c fuel s _ hc hfuel
    rw [behaviorLoop_run env sensor maxPolls skill _ k hn ht (skill.frames - c) c fuel s
      (by omega) (by omega) (Or.inl (by simp))]
    have e : c + (skill.frames - c) = skill.frames := by omega
    rw [e, behaviorLoop_end env sensor maxPolls skill _ k _ _ (by omega)]
    have e2 : List.range' c (skill.frames - c)
        = List.range' c (l - c + 1) ++ List.range' (l + 1) (skill.frames - (l + 1)) := by
      have := List.range'_append_1 c (l - c + 1) (skill.frames - (l + 1))
      have e3 : c + (l - c + 1) = l + 1 := by omega
      have e4 : skill.frames - (l + 1) + (l - c + 1) = skill.frames - c := by omega
      rw [e3, e4] at this
      exact this.symm
    simp [loopSpans, e2]
  | succ j ih =>
    intro c fuel s hj hc hfuel
    have hmul : (j + 1) * (l - f + 1) = j * (l - f + 1) + (l - f + 1) := by ring
    rw [behaviorLoop_run env sensor maxPolls skill _ k hn ht (l - c) c fuel s
      (by omega) (by omega)
      (Or.inr (fun i h1 h2 h3 => by rw [hl] at h3; omega))]
    have e : c + (l - c) = l := by omega
    obtain ⟨g, hg⟩ : ∃ g, fuel - (l - c) = g + 1 := ⟨fuel - (l - c) - 1, by omega⟩
    rw [e, hg]
    have hcast : ((j + 1 : Nat) : Int) = (j : Int) + 1 := by push_cast; rfl
    rw [hcast, behaviorLoop_jump env sensor maxPolls skill f l j k g _ ht hf hl hfl hln hn
      (by omega)]
    rw [ih f g _ (by omega) hfl (by omega)]
    rw [emit_emit, emit_emit]
    have e5 : List.range' c (l - c + 1) = List.range' c (l - c) ++ [l] := by
      rw [List.range'_concat]
      simp
      omega
    have e6 : framesEvents skill [l] = frameEvents skill l := by
      simp [framesEvents]
    simp only [loopSpans, e5, framesEvents_append, e6, List.append_assoc]

set_option maxRecDepth 20000 in
/-- C12 as stated fails outside the range of the 8 bit `repeat`: with three
frames, loop span 0..1 and count 200 the claim asks for 401 transforms, but
`repeat` is `(int8_t) 199 = -57`, the loop never jumps back and the frames 0, 1,
2 are played once each; with count -128, which is at most 1, `repeat` is
`(int8_t) -129 = 127` and 257 transforms are played instead of 3. -/
theorem C12_repeat_overflow_counterexample :
    (playingState 200).skill.frames = 3
      ∧ (playingState 200).skill.loopSpec = ⟨0, 1, 200⟩
      ∧ (playingState (-128)).skill.loopSpec = ⟨0, 1, -128⟩
      ∧ (∀ c : Nat, c < 3 → readAt (playingState 200).skill.spec (18 + (c : Int) * 20) = 0)
      ∧ (playOrder 3 0 1 200).length = 401
      ∧ (doBehaviorSkill exampleEnv levelSensor 300 (playingState 200)).map
          (fun r => frameStarts r.out) = some [0, 20, 40]
      ∧ (doBehaviorSkill exampleEnv levelSensor 300 (playingState (-128))).map
          (fun r => (frameStarts r.out).length) = some 257 := by
  refine ⟨rfl, rfl, rfl, by decide, by decide, by decide!, by decide!⟩

/-- C12, amended: for a skill of `n ≤ 255` frames without trigger axis,
`doBehaviorSkill` ends within one loop iteration per frame played and one more.
With loop rows `0 ≤ f ≤ l < n` and a count `r` with `1 ≤ r ≤ 128`, so that
`r - 1` fits the 8 bit signed `repeat`, it plays the frames `0 .. l`, then the
span `f .. l` another `r - 1` times, then `l + 1 .. n - 1`: one transform and
one delay per frame, `n + (r - 1) * (l - f + 1)` frames in all, also for `f = 0`
where the frame counter wraps.  With a count between -127 and 1 every frame is
played once, in order. -/
theorem C12_behaviour_play_order (env : Env) (sensor : Nat → Attitude) (s : ControlState)
    (hn : s.skill.frames ≤ 255)
    (ht : ∀ c, c < s.skill.frames → readAt s.skill.spec (18 + (c : Int) * 20) = 0) :
    (∀ f l r : Nat, s.skill.loopSpec.firstRow = (f : Int) →
        s.skill.loopSpec.finalRow = (l : Int) → s.skill.loopSpec.count = (r : Int) →
        f ≤ l → l < s.skill.frames → 1 ≤ r → r ≤ 128 →
        ∀ fuel, s.skill.frames + (r - 1) * (l - f + 1) < fuel →
          doBehaviorSkill env sensor fuel s =
              some (emit s (framesEvents s.skill (playOrder s.skill.frames f l r)))
            ∧ (playOrder s.skill.frames f l r).length
                = s.skill.frames + (r - 1) * (l - f + 1)
            ∧ frameStarts (framesEvents s.skill (playOrder s.skill.frames f l r))
                = (playOrder s.skill.frames f l r).map (fun c => (c : Int) * 20))
      ∧ (-127 ≤ s.skill.loopSpec.count → s.skill.loopSpec.count ≤ 1 →
        ∀ fuel, s.skill.frames < fuel →
          doBehaviorSkill env sensor fuel s =
            some (emit s (framesEvents s.skill (List.range' 0 s.skill.frames)))) := by
  constructor
  · intro f l r hf hl hr hfl hln h1 h128 fuel hfuel
    refine ⟨?_, playOrder_length _ f l r hln, frameStarts_framesEvents _ _⟩
    unfold doBehaviorSkill
    have hrep : toInt8 (s.skill.loopSpec.count - 1) = ((r - 1 : Nat) : Int) := by
      rw [hr]; unfold toInt8; omega
    rw [hrep, behaviorLoop_order env sensor fuel s.skill f l 0 hn ht hf hl hfl hln (r - 1) 0
      fuel s (by omega) (by omega) (by omega)]
    rfl
  · intro h1 h2 fuel hfuel
    unfold doBehaviorSkill
    rw [behaviorLoop_run env sensor fuel s.skill _ 0 hn ht s.skill.frames 0 fuel s
      (by omega) (by omega) (Or.inl (by unfold toInt8; omega))]
    rw [Nat.zero_add, behaviorLoop_end env sensor fuel s.skill _ 0 _ _ (by omega)]

/-- The C12 order on the example behaviour with count 3: the frames 0, 1, 0, 1,
0, 1, 2, which is 3 + 2 * 2 transforms, the loop starting at frame 0. -/
theorem C12_behaviour_play_order_witness :
    (doBehaviorSkill exampleEnv levelSensor 8 (playingState 3)).map (fun r => frameStarts r.out)
        = some [0, 20, 0, 20, 0, 20, 40]
      ∧ (playOrder 3 0 1 3).length = 3 + (3 - 1) * (1 - 0 + 1) := by
  have h := (C12_behaviour_play_order exampleEnv levelSensor (playingState 3) (by decide)
    (by decide)).1 0 1 3 rfl rfl rfl (by decide) (by decide) (by decide) (by decide) 8
    (by decide)
  refine ⟨?_, h.2.1⟩
  rw [h.1]
  decide!

/-- C13: the command `checkBodyMotion` hands back is `Recover` when the counter
is nonzero on entry and the roll is beyond `LARGE_ROLL`; otherwise it is the
previous command restored by a completed recovery, or the command passed in.
So, for a command passed in and a saved command other than `Recover`, it hands
back `Recover` if and only if the counter is nonzero on entry and the roll is
beyond its threshold.  With the counter at 0 on entry the command passed in
comes back untouched, also when the roll is beyond its threshold, while the
counter goes to 10; on the tick after any over-threshold tick, and on every
tick entered with a nonzero counter, a roll beyond its threshold gives
`Recover`. -/
theorem C13_recover_iff (env : Env) (S : Nat → ControlState) (I : Nat → AttitudeInput)
    (hlink : ∀ k, (S (k + 1)).balanceRecover =
      (checkBodyMotion env (I k) (S k) Command.Command.none).1.balanceRecover) :
    (∀ (inp : AttitudeInput) (s : ControlState) (newCmd : Command.Command),
        (checkBodyMotion env inp s newCmd).2 =
          if s.balanceRecover ≠ 0 ∧ |inp.updated.roll| > LARGE_ROLL_RAD env then
            Command.Command.ofSimple Command.Simple.Recover
          else if ¬ overThreshold env inp.updated ∧ s.balanceRecover ≠ 0
              ∧ (s.balanceRecover - 1) % 256 = 0 then s.lastCmd
          else newCmd)
      ∧ (∀ (inp : AttitudeInput) (s : ControlState) (newCmd : Command.Command),
          newCmd ≠ Command.Command.ofSimple Command.Simple.Recover →
          s.lastCmd ≠ Command.Command.ofSimple Command.Simple.Recover →
          ((checkBodyMotion env inp s newCmd).2 = Command.Command.ofSimple Command.Simple.Recover
            ↔ s.balanceRecover ≠ 0 ∧ |inp.updated.roll| > LARGE_ROLL_RAD env))
      ∧ (∀ (inp : AttitudeInput) (s : ControlState) (newCmd : Command.Command),
          s.balanceRecover = 0 →
          (checkBodyMotion env inp s newCmd).2 = newCmd
            ∧ (overThreshold env inp.updated →
                (checkBodyMotion env inp s newCmd).1.balanceRecover = 10))
      ∧ (∀ k, overThreshold env (I k).updated →
          |(I (k + 1)).updated.roll| > LARGE_ROLL_RAD env →
          (checkBodyMotion env (I (k + 1)) (S (k + 1)) Command.Command.none).2
            = Command.Command.ofSimple Command.Simple.Recover)
      ∧ (∀ k, (S k).balanceRecover ≠ 0 → |(I k).updated.roll| > LARGE_ROLL_RAD env →
          (checkBodyMotion env (I k) (S k) Command.Command.none).2
            = Command.Command.ofSimple Command.Simple.Recover) := by
  have hformula : ∀ (inp : AttitudeInput) (s : ControlState) (newCmd : Command.Command),
      (checkBodyMotion env inp s newCmd).2 =
        if s.balanceRecover ≠ 0 ∧ |inp.updated.roll| > LARGE_ROLL_RAD env then
          Command.Command.ofSimple Command.Simple.Recover
        else if ¬ overThreshold env inp.updated ∧ s.balanceRecover ≠ 0
            ∧ (s.balanceRecover - 1) % 256 = 0 then s.lastCmd
        else newCmd := by
    intro inp s newCmd
    by_cases ho : overThreshold env inp.updated
    · rw [checkBodyMotion_over env inp s newCmd ho]
      by_cases h1 : s.balanceRecover = 0
      · simp [h1, ho]
      · by_cases h2 : |inp.updated.roll| > LARGE_ROLL_RAD env
        · simp [h1, h2]
        · simp [h1, h2, ho]
    · have hr : ¬ |inp.updated.roll| > LARGE_ROLL_RAD env := fun h => ho (Or.inr h)
      by_cases h0 : s.balanceRecover = 0
      · rw [checkBodyMotion_level env inp s newCmd ho h0]
        simp [h0]
      · by_cases hz : (s.balanceRecover - 1) % 256 = 0
        · rw [checkBodyMotion_complete env inp s newCmd ho h0 hz]
          simp [hr, ho, h0, hz]
        · rw [checkBodyMotion_recovering env inp s newCmd ho h0 hz]
          simp [hr, hz]
  have hnz : ∀ k, (S k).balanceRecover ≠ 0 → |(I k).updated.roll| > LARGE_ROLL_RAD env →
      (checkBodyMotion env (I k) (S k) Command.Command.none).2
        = Command.Command.ofSimple Command.Simple.Recover := by
    intro k h1 h2
    rw [hformula, if_pos ⟨h1, h2⟩]
  refine ⟨hformula, ?_, ?_, ?_, hnz⟩
  · intro inp s newCmd hnew hlast
    rw [hformula]
    by_cases hc : s.balanceRecover ≠ 0 ∧ |inp.updated.roll| > LARGE_ROLL_RAD env
    · rw [if_pos hc]
      exact ⟨fun _ => hc, fun _ => rfl⟩
    · rw [if_neg hc]
      split_ifs
      · exact ⟨fun h => absurd h hlast, fun h => absurd h hc⟩
      · exact ⟨fun h => absurd h hnew, fun h => absurd h hc⟩
  · intro inp s newCmd h0
    refine ⟨?_, ?_⟩
    · rw [hformula]
      simp [h0]
    · intro ho
      rw [checkBodyMotion_counter]
      simp [ho]
  · intro k ho hr
    apply hnz (k + 1) _ hr
    rw [hlink, checkBodyMotion_counter]
    simp [ho]

/-- The C13 ticks on a robot rolled over on the ticks 0 and 1, starting level:
tick 0 hands back the empty command and sets the counter to 10, tick 1 hands
back `Recover`. -/
theorem C13_recover_iff_witness :
    (checkBodyMotion exampleEnv (rollTwiceThenLevel 0)
        (bodyRun exampleEnv rollTwiceThenLevel exampleState 0) Command.Command.none).2
        = Command.Command.none
      ∧ (bodyRun exampleEnv rollTwiceThenLevel exampleState 1).balanceRecover = 10
      ∧ (checkBodyMotion exampleEnv (rollTwiceThenLevel 1)
          (bodyRun exampleEnv rollTwiceThenLevel exampleState 1) Command.Command.none).2
          = Command.Command.ofSimple Command.Simple.Recover := by
  have h := C13_recover_iff exampleEnv (bodyRun exampleEnv rollTwiceThenLevel exampleState)
    rollTwiceThenLevel (fun _ => rfl)
  have h0 := h.2.2.1 (rollTwiceThenLevel 0) exampleState Command.Command.none rfl
  exact ⟨h0.1, h0.2 (by decide!), h.2.2.2.1 0 (by decide!) (by decide!)⟩

/-- The install block, seen from the prepared state. -/
theorem install_eq_prepared (env : Env) (sensor : Nat → Attitude) (fuel : Nat)
    (s : ControlState) (c : Command.Command) :
    install env sensor fuel s c =
      (if (prepared env s c).skill.type = Skill.SkillType.Behaviour then
          (doBehaviorSkill env sensor fuel (prepared env s c)).map (finishBehaviour env)
        else if (prepared env s c).skill.type ≠ Skill.SkillType.Invalid then
          some (emit (prepared env s c) [Event.transform (prepared env s c).skill.spec 0
            [(((if (prepared env s c).skill.doubleAngles then 2 else 1 : Int)) : ℚ), 1,
              ((prepared env s c).firstMotionJoint : ℚ)]])
        else some (prepared env s c)).map
        (fun s7 =>
          if c = Command.Command.ofSimple Command.Simple.Rest then
            emit { s7 with enableMotion := false } [Event.shutServos]
          else s7) := rfl

/-- The skill of the prepared state is the one the loader has for the command. -/
theorem prepared_skill (env : Env) (s : ControlState) (c : Command.Command) :
    (prepared env s c).skill = env.load c s.skill := by
  simp [prepared, emit]

/-- The calls of lines 543-547: the transform of the balance posture when the
loader has one, and nothing else. -/
theorem finishBehaviour_out (env : Env) (s : ControlState) :
    (finishBehaviour env s).out = s.out ++
      (if (env.load (Command.Command.ofSimple Command.Simple.Balance) s.skill).type
          = Skill.SkillType.Posture then
        [Event.transform
          (env.load (Command.Command.ofSimple Command.Simple.Balance) s.skill).spec 0 [1, 2]]
      else []) := by
  unfold finishBehaviour doPostureCommand
  by_cases h : (env.load (Command.Command.ofSimple Command.Simple.Balance) s.skill).type
      = Skill.SkillType.Posture
  · simp [h, emit]
  · simp [h, emit]

/-- C11: for a command that is not None and differs from `lastCmd`, that reaches
the install block (every command but a `Pause` that resumes motion and the
`Rest` and `Calibrate` commands, which are installed by their own case of the
dispatch and never played), and for which the loader answers a behaviour: when
the playback ends, `processNewCommand` returns, `lastCmd` is `Balance`, the
skill is the one the loader has for `Balance`, loaded through
`doPostureCommand`, whose only call is the transform of that posture (no
`shutServos`, and `lastCmd` is not turned into `Rest`), and the attitude
adjustment of each of the `DOF` joints is 0. -/
theorem C11_behaviour_falls_through (env : Env) (sensor : Nat → Attitude) (fuel : Nat)
    (s s5 : ControlState) (c : Command.Command)
    (hc : c ≠ Command.Command.none) (hl : c ≠ s.lastCmd)
    (hpause : ¬ (c = Command.Command.ofSimple Command.Simple.Pause ∧ s.enableMotion = false))
    (hown : ¬ installedByDispatch c)
    (hbeh : ∀ old, (env.load c old).type = Skill.SkillType.Behaviour)
    (hplay : doBehaviorSkill env sensor fuel
      (prepared env (emit (dispatch env s c).1 [Event.beep [8]]) c) = some s5) :
    processNewCommand env sensor fuel s c = some (finishBehaviour env s5)
      ∧ (finishBehaviour env s5).lastCmd = Command.Command.ofSimple Command.Simple.Balance
      ∧ (finishBehaviour env s5).skill
          = env.load (Command.Command.ofSimple Command.Simple.Balance) s5.skill
      ∧ (finishBehaviour env s5).out = s5.out ++
          (if (env.load (Command.Command.ofSimple Command.Simple.Balance) s5.skill).type
              = Skill.SkillType.Posture then
            [Event.transform
              (env.load (Command.Command.ofSimple Command.Simple.Balance) s5.skill).spec 0
              [1, 2]]
          else [])
      ∧ (∀ e, e ∈ (finishBehaviour env s5).out → e ∉ s5.out → e ≠ Event.shutServos)
      ∧ (finishBehaviour env s5).currentAdjust = List.replicate env.DOF 0
      ∧ (∀ a, a < env.DOF → (finishBehaviour env s5).currentAdjust.get? a = some 0) := by
  obtain ⟨f1, f2, _, _, _, f6, _⟩ := finishBehaviour_fields env s5
  have hout := finishBehaviour_out env s5
  refine ⟨?_, f1, f2, hout, ?_, f6, ?_⟩
  · rcases dispatch_cases env s c hl with h | ⟨h1, h2, _, _⟩ | ⟨_, _, _, _, h5⟩
    · exact absurd h hpause
    · unfold processNewCommand
      simp only [h1, ne_eq, hc, not_false_eq_true, if_true, true_and]
      rw [if_pos (by simpa [emit, h2] using hl), install_eq_prepared]
      have hrest : c ≠ Command.Command.ofSimple Command.Simple.Rest :=
        fun h => hown (Or.inl h)
      rw [if_pos (by rw [prepared_skill]; exact hbeh _), hplay]
      simp [hrest]
    · exact absurd h5 hown
  · intro e he hne
    rw [hout, List.mem_append] at he
    rcases he with he | he
    · exact absurd he hne
    · split_ifs at he
      · rw [List.mem_singleton] at he
        rw [he]
        exact fun h => Event.noConfusion h
      · exact absurd he (List.not_mem_nil _)
  · intro a ha
    rw [f6]
    simp [List.getElem?_replicate, ha]

/-- The C11 fall-through on the trick asked of the walking robot: the call
returns with `Balance` as last command and sixteen cleared adjustments. -/
theorem C11_behaviour_falls_through_witness :
    (processNewCommand behaviourEnv levelSensor 8 walkingState trick).map
        (fun r => (r.lastCmd, r.skill.type, r.currentAdjust))
      = some (Command.Command.ofSimple Command.Simple.Balance, Skill.SkillType.Posture,
          List.replicate 16 0) := by
  have h := C11_behaviour_falls_through behaviourEnv levelSensor 8 walkingState trickPlayed
    trick (by decide) (by decide) (by decide)
    (by
      rintro (h | ⟨args, h⟩)
      · exact absurd h (by decide)
      · simp [trick, Command.Command.ofSimple, Command.Command.ofWithArgs] at h)
    (fun _ => rfl) (by decide!)
  rw [h.1]
  decide!

end Bittleet
